import Mathlib

/-!
Shallow embedding of the double-entry ledger core of the personal-finance
API (startkit-nestjs): wallet CRUD (`wallet.service.ts`), the transaction
engine (`TransactionService` with its income / expense / transfer paths),
and the goal auto-aggregator (`GoalService`).

Modelling conventions:
* Database-generated primary keys (UUIDs in the source) are modelled as
  `Nat` ids handed out by per-table counters in the `DB` state, which is
  exactly the freshness guarantee the real store provides.
* Monetary amounts are `Int` (the source stores decimals with at most two
  fractional digits; scaling by 100 makes them integers, and no operation
  in the modelled code divides amounts).
* Each Prisma query/mutation becomes a pure function on the `DB` state;
  `prisma.$transaction` becomes `runAtomic`, which applies the callback's
  writes atomically and reverts to the pre-transaction state on failure —
  the documented rollback semantics of the ORM helper.
* Thrown `Error('CODE')` values become the `Err` inductive.
-/

inductive Direction where
  | din   -- 'in'
  | dout  -- 'out'
deriving DecidableEq, Repr

inductive CategoryType where
  | income
  | expense
deriving DecidableEq, Repr

inductive TxType where
  | income
  | expense
  | transfer
deriving DecidableEq, Repr

/-- Wallet row (`Wallet` model): owner, kind, opening/current balance, archived flag. -/
structure Wallet where
  id : Nat
  userId : String
  name : String
  walletType : String   -- 'cash' | 'bank' | 'ewallet' | 'credit' (free-form here)
  openingBalance : Int
  currentBalance : Int
  isArchived : Bool
deriving DecidableEq, Repr

/-- Category row: classification tag for income/expense transactions. -/
structure Category where
  id : Nat
  userId : String
  ctype : CategoryType
deriving DecidableEq, Repr

/-- Entry row: one signed movement against exactly one wallet. -/
structure Entry where
  transactionId : Nat
  walletId : Nat
  direction : Direction
  amount : Int
deriving DecidableEq, Repr

/-- Transaction header row, with the soft-delete marker (`deletedAt`). -/
structure Txn where
  id : Nat
  userId : String
  txType : TxType
  categoryId : Option Nat
  transactionDate : Nat
  amount : Int
  note : Option String
  deleted : Bool
deriving DecidableEq, Repr

/-- The relational store: rows plus the id allocators. -/
structure DB where
  wallets : List Wallet
  categories : List Category
  transactions : List Txn
  entries : List Entry
  nextWalletId : Nat
  nextTxnId : Nat
deriving DecidableEq, Repr

/-- Thrown error codes (`new Error('...')`); `INSUFFICIENT_BALANCE` is declared
in the application's `ErrorMap` but — as proved below — never raised by the
transaction path. -/
inductive Err where
  | TRANSACTION_WALLET_NOT_FOUND
  | TRANSACTION_CATEGORY_NOT_FOUND
  | INVALID_CATEGORY_TYPE_FOR_INCOME
  | INVALID_CATEGORY_TYPE_FOR_EXPENSE
  | SAME_WALLET_TRANSFER
  | UNSUPPORTED_TRANSACTION_TYPE
  | WALLET_NOT_FOUND
  | WALLET_HAS_TRANSACTIONS
  | WALLET_NAME_EXISTS
  | INSUFFICIENT_BALANCE
  | RECORD_NOT_FOUND       -- Prisma P2025: update target row does not exist
  | GOAL_NOT_FOUND
deriving DecidableEq, Repr

/-- The validated `CreateTransactionData` discriminated union
(`transaction.schema.ts`): income / expense / transfer intents. -/
inductive CreateTransactionData where
  | income (walletId categoryId : Nat) (transactionDate : Nat) (amount : Int)
      (note : Option String)
  | expense (walletId categoryId : Nat) (transactionDate : Nat) (amount : Int)
      (note : Option String)
  | transfer (fromWalletId toWalletId : Nat) (transactionDate : Nat) (amount : Int)
      (note : Option String)
deriving DecidableEq, Repr

/-- `prisma.wallet.findFirst({ where: { id, userId, isArchived: false } })`. -/
def findWalletOwned (db : DB) (walletId : Nat) (userId : String) : Option Wallet :=
  db.wallets.find? fun w => w.id == walletId && w.userId == userId && !w.isArchived

/-- `validateWalletOwnership(walletId, userId)`: wallet must exist, belong to
the user and not be archived, else `TRANSACTION_WALLET_NOT_FOUND`. -/
def validateWalletOwnership (walletId : Nat) (userId : String) (db : DB) :
    Except Err Wallet :=
  match findWalletOwned db walletId userId with
  | some wallet => .ok wallet
  | none => .error .TRANSACTION_WALLET_NOT_FOUND

/-- `validateCategoryOwnership(categoryId, userId, transactionType)`. -/
def validateCategoryOwnership (categoryId : Nat) (userId : String)
    (transactionType : TxType) (db : DB) : Except Err Category :=
  match db.categories.find? (fun c => c.id == categoryId && c.userId == userId) with
  | none => .error .TRANSACTION_CATEGORY_NOT_FOUND
  | some category =>
    if transactionType == .income && category.ctype != .income then
      .error .INVALID_CATEGORY_TYPE_FOR_INCOME
    else if transactionType == .expense && category.ctype != .expense then
      .error .INVALID_CATEGORY_TYPE_FOR_EXPENSE
    else .ok category

/-- A nested-create posting spec: `(walletId, direction, amount)`. -/
structure EntrySpec where
  walletId : Nat
  direction : Direction
  amount : Int
deriving DecidableEq, Repr

/-- `tx.transaction.create({ data: { ..., entries: { create: [...] } } })`:
insert the header row and its entry rows, consuming one auto-id. -/
def txnCreate (userId : String) (txType : TxType) (categoryId : Option Nat)
    (transactionDate : Nat) (amount : Int) (note : Option String)
    (specs : List EntrySpec) (db : DB) : Txn × DB :=
  let tid := db.nextTxnId
  let t : Txn :=
    { id := tid, userId := userId, txType := txType, categoryId := categoryId
      transactionDate := transactionDate, amount := amount, note := note
      deleted := false }
  (t, { db with
          transactions := db.transactions ++ [t]
          entries := db.entries ++ specs.map fun s =>
            { transactionId := tid, walletId := s.walletId
              direction := s.direction, amount := s.amount }
          nextTxnId := tid + 1 })

/-- The storage-level relative-delta update on one wallet row
(`currentBalance: { increment: d }` uses `d`, `decrement` uses `-d`). -/
def applyDelta (walletId : Nat) (d : Int) (ws : List Wallet) : List Wallet :=
  ws.map fun w =>
    if w.id == walletId then { w with currentBalance := w.currentBalance + d } else w

/-- `tx.wallet.update({ where: { id }, data: { currentBalance: { increment d } } })`;
Prisma throws (P2025) when the target row does not exist. -/
def walletUpdateBalance (walletId : Nat) (d : Int) (db : DB) : Except Err DB :=
  if db.wallets.any (fun w => w.id == walletId) then
    .ok { db with wallets := applyDelta walletId d db.wallets }
  else .error .RECORD_NOT_FOUND

/-- `prisma.$transaction(fn)`: run the callback's writes as one atomic unit;
if anything inside throws, every write is rolled back (state reverts). -/
def runAtomic (db : DB) (body : DB → Except Err (Txn × DB)) : DB × Except Err Txn :=
  match body db with
  | .ok (t, db2) => (db2, .ok t)
  | .error e => (db, .error e)

/-- `createIncomeTransaction`: validate wallet and category, then atomically
insert the header with one `in` entry and increment the wallet balance. -/
def createIncomeTransaction (walletId categoryId : Nat) (transactionDate : Nat)
    (amount : Int) (note : Option String) (userId : String) (db : DB) :
    DB × Except Err Txn :=
  match validateWalletOwnership walletId userId db with
  | .error e => (db, .error e)
  | .ok _ =>
  match validateCategoryOwnership categoryId userId .income db with
  | .error e => (db, .error e)
  | .ok _ =>
  runAtomic db fun tx0 =>
    let (t, tx1) := txnCreate userId .income (some categoryId) transactionDate
      amount note [⟨walletId, .din, amount⟩] tx0
    match walletUpdateBalance walletId amount tx1 with
    | .error e => .error e
    | .ok tx2 => .ok (t, tx2)

/-- `createExpenseTransaction`: one `out` entry, balance decremented. -/
def createExpenseTransaction (walletId categoryId : Nat) (transactionDate : Nat)
    (amount : Int) (note : Option String) (userId : String) (db : DB) :
    DB × Except Err Txn :=
  match validateWalletOwnership walletId userId db with
  | .error e => (db, .error e)
  | .ok _ =>
  match validateCategoryOwnership categoryId userId .expense db with
  | .error e => (db, .error e)
  | .ok _ =>
  runAtomic db fun tx0 =>
    let (t, tx1) := txnCreate userId .expense (some categoryId) transactionDate
      amount note [⟨walletId, .dout, amount⟩] tx0
    match walletUpdateBalance walletId (-amount) tx1 with
    | .error e => .error e
    | .ok tx2 => .ok (t, tx2)

/-- `createTransferTransaction`: reject same-wallet transfers, validate both
wallets, then atomically insert the header with the `out`/`in` entry pair and
apply both balance deltas. -/
def createTransferTransaction (fromWalletId toWalletId : Nat)
    (transactionDate : Nat) (amount : Int) (note : Option String)
    (userId : String) (db : DB) : DB × Except Err Txn :=
  if fromWalletId == toWalletId then (db, .error .SAME_WALLET_TRANSFER)
  else
  match validateWalletOwnership fromWalletId userId db with
  | .error e => (db, .error e)
  | .ok _ =>
  match validateWalletOwnership toWalletId userId db with
  | .error e => (db, .error e)
  | .ok _ =>
  runAtomic db fun tx0 =>
    let (t, tx1) := txnCreate userId .transfer none transactionDate amount note
      [⟨fromWalletId, .dout, amount⟩, ⟨toWalletId, .din, amount⟩] tx0
    match walletUpdateBalance fromWalletId (-amount) tx1 with
    | .error e => .error e
    | .ok tx2 =>
    match walletUpdateBalance toWalletId amount tx2 with
    | .error e => .error e
    | .ok tx3 => .ok (t, tx3)

/-- `TransactionService.createTransaction`: dispatch on the intent type.
(The source's `default: throw UNSUPPORTED_TRANSACTION_TYPE` branch is
unreachable here because the discriminated union has exactly three tags.) -/
def TransactionService.createTransaction (data : CreateTransactionData)
    (userId : String) (db : DB) : DB × Except Err Txn :=
  match data with
  | .income w c d a n => createIncomeTransaction w c d a n userId db
  | .expense w c d a n => createExpenseTransaction w c d a n userId db
  | .transfer f t d a n => createTransferTransaction f t d a n userId db

/-- Validated `CreateWalletData` (name, kind, opening balance; the zod default
`openingBalance = 0` is applied by the caller). -/
structure CreateWalletData where
  name : String
  walletType : String
  openingBalance : Int
deriving DecidableEq, Repr

/-- `WalletService.createWallet`: reject a duplicate active name for the user,
else insert a wallet whose `currentBalance` starts at `openingBalance`. -/
def WalletService.createWallet (data : CreateWalletData) (userId : String)
    (db : DB) : DB × Except Err Wallet :=
  if db.wallets.any (fun w => w.userId == userId && w.name == data.name && !w.isArchived)
  then (db, .error .WALLET_NAME_EXISTS)
  else
    let w : Wallet :=
      { id := db.nextWalletId, userId := userId, name := data.name
        walletType := data.walletType, openingBalance := data.openingBalance
        currentBalance := data.openingBalance, isArchived := false }
    ({ db with wallets := db.wallets ++ [w], nextWalletId := db.nextWalletId + 1 },
     .ok w)

/-- `WalletService.deleteWallet`: find the wallet by (id, user); fail with
`WALLET_HAS_TRANSACTIONS` when any entry references it (the entry lookup does
not filter on the parent transaction's soft-delete marker), else archive it. -/
def WalletService.deleteWallet (walletId : Nat) (userId : String) (db : DB) :
    DB × Except Err Wallet :=
  match db.wallets.find? (fun w => w.id == walletId && w.userId == userId) with
  | none => (db, .error .WALLET_NOT_FOUND)
  | some w =>
    if db.entries.any (fun e => e.walletId == walletId) then
      (db, .error .WALLET_HAS_TRANSACTIONS)
    else
      ({ db with wallets := db.wallets.map fun w2 =>
            if w2.id == walletId then { w2 with isArchived := true } else w2 },
       .ok { w with isArchived := true })

/-! ## Goal auto-aggregator (`goal.service.ts`) -/

inductive TrackingType where
  | checkbox
  | value
  | progress
deriving DecidableEq, Repr

inductive GoalStatus where
  | pending
  | in_progress
  | completed
  | failed
deriving DecidableEq, Repr

/-- Goal row, restricted to the fields the aggregation logic reads or writes
(title, unit, dates, priority, category, period and recurring config are
copied verbatim by the source and never influence the recalculation). -/
structure Goal where
  id : Nat
  userId : String
  trackingType : TrackingType
  targetValue : Option Int
  currentValue : Int
  parentGoalId : Option Nat
  autoCalculate : Bool
  status : GoalStatus
deriving DecidableEq, Repr

/-- Milestone row, restricted to the fields the aggregation logic reads. -/
structure Milestone where
  id : Nat
  goalId : Nat
  isCompleted : Bool
deriving DecidableEq, Repr

/-- Goal-table state. -/
structure GoalDB where
  goals : List Goal
  milestones : List Milestone
deriving DecidableEq, Repr

/-- `UpdateGoalData`, restricted to the fields that feed the auto-status and
recalculation logic (the other optional fields are copied verbatim). -/
structure UpdateGoalData where
  targetValue : Option Int
  currentValue : Option Int
  status : Option GoalStatus
deriving DecidableEq, Repr

/-- JavaScript `Math.round(num / den)` for `den > 0`:
round half toward positive infinity, i.e. `⌊num/den + 1/2⌋`. -/
def jsRound (num den : Int) : Int := Int.fdiv (2 * num + den) (2 * den)

/-- The sub-goals of `goalId` (`subGoals` relation: goals whose
`parentGoalId` is this goal). -/
def subGoalsOf (db : GoalDB) (goalId : Nat) : List Goal :=
  db.goals.filter fun g => g.parentGoalId == some goalId

/-- `Σ children.currentValue` (`subGoals.reduce((sum, sub) => sum + Number(sub.currentValue || 0), 0)`). -/
def subGoalsTotal (db : GoalDB) (goalId : Nat) : Int :=
  (subGoalsOf db goalId).foldl (fun s sub => s + sub.currentValue) 0

/-- `GoalService.recalculateGoalFromSubGoals(goalId)`: when the goal has
`autoCalculate` and at least one sub-goal, set `currentValue` to the
sub-goals' total and derive `status` from the progress percentage (milestone
completion ratio when milestones exist, else value/target ratio for
value-tracking goals with a nonzero target; `Math.round`, capped at 100). -/
def GoalService.recalculateGoalFromSubGoals (goalId : Nat) (db : GoalDB) : GoalDB :=
  match db.goals.find? (fun g => g.id == goalId) with
  | none => db
  | some goal =>
    let subGoals := subGoalsOf db goalId
    if !goal.autoCalculate || subGoals.length == 0 then db
    else
      let milestones := db.milestones.filter fun m => m.goalId == goalId
      let totalCurrentValue := subGoalsTotal db goalId
      let progress : Int :=
        if milestones.length > 0 then
          jsRound ((milestones.filter fun m => m.isCompleted).length * 100)
            milestones.length
        else
          match goal.trackingType, goal.targetValue with
          | .value, some t =>
            if t ≠ 0 then min 100 (jsRound (totalCurrentValue * 100) t) else 0
          | _, _ => 0
      let status' :=
        if progress ≥ 100 then GoalStatus.completed
        else if totalCurrentValue > 0 then GoalStatus.in_progress
        else goal.status
      { db with goals := db.goals.map fun g =>
          if g.id == goalId then
            { g with currentValue := totalCurrentValue, status := status' }
          else g }

/-- `GoalService.updateGoal(goalId, userId, data)`: find the goal by
(id, user), apply the requested field updates (with the source's JS
coercions: `targetValue || null`, `currentValue || 0`), auto-derive the
status when both `currentValue` and `targetValue` are supplied and the goal
is not checkbox-tracked, write the row, and — when the updated goal itself
has `autoCalculate` and sub-goals — recalculate it from its sub-goals.
Returns the row as fetched before the recalculation, as the source does. -/
def GoalService.updateGoal (goalId : Nat) (userId : String)
    (data : UpdateGoalData) (db : GoalDB) : GoalDB × Except Err Goal :=
  match db.goals.find? (fun g => g.id == goalId && g.userId == userId) with
  | none => (db, .error .GOAL_NOT_FOUND)
  | some existingGoal =>
    let newTarget : Option Int :=
      match data.targetValue with
      | some v => if v == 0 then none else some v   -- `data.targetValue || null`
      | none => existingGoal.targetValue
    let newCurrent : Int :=
      match data.currentValue with
      | some v => v                                 -- `data.currentValue || 0`
      | none => existingGoal.currentValue
    let requestedStatus : Option GoalStatus := data.status
    let autoStatus : Option GoalStatus :=
      match data.currentValue, data.targetValue with
      | some cv, some tv =>
        if existingGoal.trackingType != .checkbox then
          if cv ≥ tv then some .completed
          else if cv > 0 then some .in_progress
          else requestedStatus
        else requestedStatus
      | _, _ => requestedStatus
    let newStatus : GoalStatus :=
      match autoStatus with
      | some s => s
      | none => existingGoal.status
    let updatedGoal : Goal :=
      { existingGoal with
          targetValue := newTarget, currentValue := newCurrent, status := newStatus }
    let db1 : GoalDB :=
      { db with goals := db.goals.map fun g =>
          if g.id == goalId then updatedGoal else g }
    let db2 : GoalDB :=
      if updatedGoal.autoCalculate && (subGoalsOf db1 goalId).length > 0 then
        GoalService.recalculateGoalFromSubGoals goalId db1
      else db1
    (db2, .ok updatedGoal)

/-! ## Ledger invariants and operation sequences -/

/-- Sum of `in`-entry amounts on a wallet. -/
def inSum (es : List Entry) (walletId : Nat) : Int :=
  ((es.filter fun e => e.walletId == walletId && e.direction == .din).map
    Entry.amount).sum

/-- Sum of `out`-entry amounts on a wallet. -/
def outSum (es : List Entry) (walletId : Nat) : Int :=
  ((es.filter fun e => e.walletId == walletId && e.direction == .dout).map
    Entry.amount).sum

/-- The balance invariant: every wallet's `currentBalance` equals
`openingBalance + Σ(in entries) − Σ(out entries)` on that wallet. -/
def balanceInv (db : DB) : Prop :=
  ∀ w ∈ db.wallets,
    w.currentBalance = w.openingBalance + inSum db.entries w.id - outSum db.entries w.id

/-- Structural well-formedness delivered by the store: ids issued by the
counters, so every stored id is below its allocator. -/
def DB.wf (db : DB) : Prop :=
  (∀ w ∈ db.wallets, w.id < db.nextWalletId) ∧
  (∀ e ∈ db.entries, e.walletId < db.nextWalletId) ∧
  (∀ e ∈ db.entries, e.transactionId < db.nextTxnId)

instance : DecidablePred balanceInv := fun db => by
  unfold balanceInv; infer_instance

instance : DecidablePred DB.wf := fun db => by
  unfold DB.wf; infer_instance

/-- The state-mutating operations claim C1 quantifies over. -/
inductive Op where
  | createWallet (data : CreateWalletData) (userId : String)
  | post (data : CreateTransactionData) (userId : String)
deriving DecidableEq, Repr

/-- Run one operation; a failed operation leaves the state unchanged (its
result component is discarded). -/
def applyOp (db : DB) (op : Op) : DB :=
  match op with
  | .createWallet d uid => (WalletService.createWallet d uid db).1
  | .post d uid => (TransactionService.createTransaction d uid db).1

/-- Run a sequence of operations. -/
def applyOps (db : DB) (ops : List Op) : DB := ops.foldl applyOp db

/-! ## Helper lemmas -/

theorem filter_map_pres {α : Type} (f : α → α) (p : α → Bool)
    (h : ∀ x, p (f x) = p x) :
    ∀ l : List α, (l.map f).filter p = (l.filter p).map f := by
  intro l
  induction l with
  | nil => rfl
  | cons a t ih =>
    simp only [List.map_cons, List.filter_cons, h a]
    cases hp : p a <;> simp [hp, ih]

theorem find?_map_pres {α : Type} (f : α → α) (p : α → Bool)
    (h : ∀ x, p (f x) = p x) :
    ∀ l : List α, (l.map f).find? p = (l.find? p).map f := by
  intro l
  induction l with
  | nil => rfl
  | cons a t ih =>
    simp only [List.map_cons, List.find?_cons, h a]
    cases hp : p a <;> simp [hp, ih]

theorem any_map_pres {α : Type} (f : α → α) (p : α → Bool)
    (h : ∀ x, p (f x) = p x) :
    ∀ l : List α, (l.map f).any p = l.any p := by
  intro l
  induction l with
  | nil => rfl
  | cons a t ih => simp only [List.map_cons, List.any_cons, h a, ih]

theorem mem_of_filter_singleton {α : Type} (l : List α) (p : α → Bool) (a : α)
    (h : l.filter p = [a]) : a ∈ l ∧ p a = true := by
  have ha : a ∈ l.filter p := by rw [h]; exact List.mem_singleton_self a
  exact ⟨(List.mem_filter.1 ha).1, (List.mem_filter.1 ha).2⟩

/-- The wallet-row updater used by a balance delta preserves every field
except `currentBalance`; in particular the row id. -/
theorem applyDelta_row_id (wid : Nat) (d : Int) (w : Wallet) :
    ((if w.id == wid then { w with currentBalance := w.currentBalance + d }
      else w) : Wallet).id = w.id := by
  by_cases h : w.id == wid <;> simp [h]

theorem inSum_append (es1 es2 : List Entry) (x : Nat) :
    inSum (es1 ++ es2) x = inSum es1 x + inSum es2 x := by
  simp [inSum, List.filter_append]

theorem outSum_append (es1 es2 : List Entry) (x : Nat) :
    outSum (es1 ++ es2) x = outSum es1 x + outSum es2 x := by
  simp [outSum, List.filter_append]

theorem inSum_single (tid wid : Nat) (dir : Direction) (a : Int) (x : Nat) :
    inSum [{ transactionId := tid, walletId := wid, direction := dir, amount := a }] x
      = if wid == x && dir == Direction.din then a else 0 := by
  cases hc : (wid == x && dir == Direction.din) <;> simp [inSum, hc]

theorem outSum_single (tid wid : Nat) (dir : Direction) (a : Int) (x : Nat) :
    outSum [{ transactionId := tid, walletId := wid, direction := dir, amount := a }] x
      = if wid == x && dir == Direction.dout then a else 0 := by
  cases hc : (wid == x && dir == Direction.dout) <;> simp [outSum, hc]

theorem inSum_of_no_wallet (es : List Entry) (x : Nat)
    (h : ∀ e ∈ es, e.walletId ≠ x) : inSum es x = 0 := by
  have hf : es.filter (fun e => e.walletId == x && e.direction == Direction.din) = [] := by
    rw [List.filter_eq_nil_iff]
    intro e he
    simp [h e he]
  simp [inSum, hf]

theorem outSum_of_no_wallet (es : List Entry) (x : Nat)
    (h : ∀ e ∈ es, e.walletId ≠ x) : outSum es x = 0 := by
  have hf : es.filter (fun e => e.walletId == x && e.direction == Direction.dout) = [] := by
    rw [List.filter_eq_nil_iff]
    intro e he
    simp [h e he]
  simp [outSum, hf]

/-- Signed balance effect of one posting: `+amount` for `in`, `-amount` for `out`. -/
def dirDelta (dir : Direction) (a : Int) : Int :=
  match dir with
  | .din => a
  | .dout => -a

/-- The balance invariant over explicit wallet and entry lists. -/
def balInvOn (ws : List Wallet) (es : List Entry) : Prop :=
  ∀ w ∈ ws, w.currentBalance = w.openingBalance + inSum es w.id - outSum es w.id

theorem balanceInv_eq_on (db : DB) : balanceInv db ↔ balInvOn db.wallets db.entries :=
  Iff.rfl

/-- One posting step — append the entry and apply the matching delta —
preserves the balance invariant. -/
theorem balInvOn_post (ws : List Wallet) (es : List Entry) (tid wid : Nat)
    (dir : Direction) (a : Int) (h : balInvOn ws es) :
    balInvOn (applyDelta wid (dirDelta dir a) ws)
      (es ++ [{ transactionId := tid, walletId := wid, direction := dir, amount := a }]) := by
  intro w' hw'
  rw [applyDelta] at hw'
  obtain ⟨w, hw, rfl⟩ := List.mem_map.1 hw'
  have hbal := h w hw
  rw [inSum_append, outSum_append, applyDelta_row_id, inSum_single, outSum_single]
  by_cases hid : w.id = wid
  · have hb : (w.id == wid) = true := by simp [hid]
    have hb2 : (wid == w.id) = true := by simp [hid]
    cases dir <;> simp [hb, hb2, dirDelta] <;> omega
  · have hb : (w.id == wid) = false := by simp [hid]
    have hb2 : (wid == w.id) = false := by simp [Ne.symm hid]
    cases dir <;> simp [hb, hb2] <;> omega

/-- Case split for `createIncomeTransaction`: either the attempt fails with the
state untouched, or the wallet row exists and the committed state is the old
state plus the header, the single `in` entry, and the balance increment. -/
theorem createIncome_split (wid cid dt : Nat) (a : Int) (n : Option String)
    (uid : String) (db : DB) :
    (∃ e, createIncomeTransaction wid cid dt a n uid db = (db, .error e)) ∨
    (db.wallets.any (fun w => w.id == wid) = true ∧
      createIncomeTransaction wid cid dt a n uid db =
        ({ db with
             wallets := applyDelta wid a db.wallets
             transactions := db.transactions ++
               [{ id := db.nextTxnId, userId := uid, txType := .income,
                  categoryId := some cid, transactionDate := dt, amount := a,
                  note := n, deleted := false }]
             entries := db.entries ++
               [{ transactionId := db.nextTxnId, walletId := wid,
                  direction := .din, amount := a }]
             nextTxnId := db.nextTxnId + 1 },
         .ok { id := db.nextTxnId, userId := uid, txType := .income,
               categoryId := some cid, transactionDate := dt, amount := a,
               note := n, deleted := false })) := by
  unfold createIncomeTransaction
  cases h1 : validateWalletOwnership wid uid db with
  | error e => exact Or.inl ⟨e, rfl⟩
  | ok w =>
    cases h2 : validateCategoryOwnership cid uid .income db with
    | error e => exact Or.inl ⟨e, rfl⟩
    | ok c =>
      by_cases hany : db.wallets.any (fun w => w.id == wid) = true
      · refine Or.inr ⟨hany, ?_⟩
        simp [runAtomic, txnCreate, walletUpdateBalance, hany]
      · refine Or.inl ⟨.RECORD_NOT_FOUND, ?_⟩
        simp only [Bool.not_eq_true] at hany
        simp [runAtomic, txnCreate, walletUpdateBalance, hany]

/-- Case split for `createExpenseTransaction` (single `out` entry, decrement). -/
theorem createExpense_split (wid cid dt : Nat) (a : Int) (n : Option String)
    (uid : String) (db : DB) :
    (∃ e, createExpenseTransaction wid cid dt a n uid db = (db, .error e)) ∨
    (db.wallets.any (fun w => w.id == wid) = true ∧
      createExpenseTransaction wid cid dt a n uid db =
        ({ db with
             wallets := applyDelta wid (-a) db.wallets
             transactions := db.transactions ++
               [{ id := db.nextTxnId, userId := uid, txType := .expense,
                  categoryId := some cid, transactionDate := dt, amount := a,
                  note := n, deleted := false }]
             entries := db.entries ++
               [{ transactionId := db.nextTxnId, walletId := wid,
                  direction := .dout, amount := a }]
             nextTxnId := db.nextTxnId + 1 },
         .ok { id := db.nextTxnId, userId := uid, txType := .expense,
               categoryId := some cid, transactionDate := dt, amount := a,
               note := n, deleted := false })) := by
  unfold createExpenseTransaction
  cases h1 : validateWalletOwnership wid uid db with
  | error e => exact Or.inl ⟨e, rfl⟩
  | ok w =>
    cases h2 : validateCategoryOwnership cid uid .expense db with
    | error e => exact Or.inl ⟨e, rfl⟩
    | ok c =>
      by_cases hany : db.wallets.any (fun w => w.id == wid) = true
      · refine Or.inr ⟨hany, ?_⟩
        simp [runAtomic, txnCreate, walletUpdateBalance, hany]
      · refine Or.inl ⟨.RECORD_NOT_FOUND, ?_⟩
        simp only [Bool.not_eq_true] at hany
        simp [runAtomic, txnCreate, walletUpdateBalance, hany]

/-- Case split for `createTransferTransaction` (entry pair, two deltas). -/
theorem createTransfer_split (fromW toW dt : Nat) (a : Int) (n : Option String)
    (uid : String) (db : DB) :
    (∃ e, createTransferTransaction fromW toW dt a n uid db = (db, .error e)) ∨
    (db.wallets.any (fun w => w.id == fromW) = true ∧
      db.wallets.any (fun w => w.id == toW) = true ∧
      createTransferTransaction fromW toW dt a n uid db =
        ({ db with
             wallets := applyDelta toW a (applyDelta fromW (-a) db.wallets)
             transactions := db.transactions ++
               [{ id := db.nextTxnId, userId := uid, txType := .transfer,
                  categoryId := none, transactionDate := dt, amount := a,
                  note := n, deleted := false }]
             entries := db.entries ++
               [{ transactionId := db.nextTxnId, walletId := fromW,
                  direction := .dout, amount := a },
                { transactionId := db.nextTxnId, walletId := toW,
                  direction := .din, amount := a }]
             nextTxnId := db.nextTxnId + 1 },
         .ok { id := db.nextTxnId, userId := uid, txType := .transfer,
               categoryId := none, transactionDate := dt, amount := a,
               note := n, deleted := false })) := by
  unfold createTransferTransaction
  by_cases hsame : (fromW == toW) = true
  · exact Or.inl ⟨.SAME_WALLET_TRANSFER, by simp [hsame]⟩
  · simp only [Bool.not_eq_true] at hsame
    simp only [hsame]
    cases h1 : validateWalletOwnership fromW uid db with
    | error e => exact Or.inl ⟨e, by simp⟩
    | ok w1 =>
      cases h2 : validateWalletOwnership toW uid db with
      | error e => exact Or.inl ⟨e, by simp⟩
      | ok w2 =>
        by_cases hany1 : db.wallets.any (fun w => w.id == fromW) = true
        · by_cases hany2 : db.wallets.any (fun w => w.id == toW) = true
          · refine Or.inr ⟨hany1, hany2, ?_⟩
            have hany2' : (applyDelta fromW (-a) db.wallets).any
                (fun w => w.id == toW) = true := by
              rw [applyDelta,
                any_map_pres _ _ (fun w => by rw [applyDelta_row_id]) db.wallets]
              exact hany2
            simp [runAtomic, txnCreate, walletUpdateBalance, hany1, hany2']
          · refine Or.inl ⟨.RECORD_NOT_FOUND, ?_⟩
            simp only [Bool.not_eq_true] at hany2
            have hany2' : (applyDelta fromW (-a) db.wallets).any
                (fun w => w.id == toW) = false := by
              rw [applyDelta,
                any_map_pres _ _ (fun w => by rw [applyDelta_row_id]) db.wallets]
              exact hany2
            simp [runAtomic, txnCreate, walletUpdateBalance, hany1, hany2']
        · refine Or.inl ⟨.RECORD_NOT_FOUND, ?_⟩
          simp only [Bool.not_eq_true] at hany1
          simp [runAtomic, txnCreate, walletUpdateBalance, hany1]

theorem applyDelta_ids_lt (ws : List Wallet) (wid : Nat) (d : Int) (n : Nat)
    (h : ∀ w ∈ ws, w.id < n) : ∀ w ∈ applyDelta wid d ws, w.id < n := by
  intro w' hw'
  rw [applyDelta] at hw'
  obtain ⟨w, hw, rfl⟩ := List.mem_map.1 hw'
  rw [applyDelta_row_id]
  exact h w hw

theorem id_lt_of_any (ws : List Wallet) (wid : Nat) (n : Nat)
    (h : ∀ w ∈ ws, w.id < n)
    (hany : ws.any (fun w => w.id == wid) = true) : wid < n := by
  obtain ⟨w, hw, hww⟩ := List.any_eq_true.1 hany
  rw [beq_iff_eq] at hww
  exact hww ▸ h w hw

/-- Every single operation — wallet creation or a `createTransaction` attempt,
successful or failed — preserves well-formedness and the balance invariant. -/
theorem applyOp_preserves (db : DB) (op : Op) (hwf : db.wf)
    (hinv : balanceInv db) : (applyOp db op).wf ∧ balanceInv (applyOp db op) := by
  obtain ⟨hw1, hw2, hw3⟩ := hwf
  cases op with
  | createWallet d uid =>
    show ((WalletService.createWallet d uid db).1).wf ∧
      balanceInv ((WalletService.createWallet d uid db).1)
    unfold WalletService.createWallet
    by_cases hdup : db.wallets.any
        (fun w => w.userId == uid && w.name == d.name && !w.isArchived) = true
    · simp only [hdup, if_true]
      exact ⟨⟨hw1, hw2, hw3⟩, hinv⟩
    · simp only [Bool.not_eq_true] at hdup
      simp only [hdup, Bool.false_eq_true, if_false]
      refine ⟨⟨?_, ?_, ?_⟩, ?_⟩
      · intro w hw
        rcases List.mem_append.1 hw with h | h
        · exact Nat.lt_succ_of_lt (hw1 w h)
        · rw [List.mem_singleton] at h
          subst h
          exact Nat.lt_succ_self _
      · intro e he
        exact Nat.lt_succ_of_lt (hw2 e he)
      · exact hw3
      · intro w hw
        rcases List.mem_append.1 hw with h | h
        · exact hinv w h
        · rw [List.mem_singleton] at h
          subst h
          have hzi : inSum db.entries db.nextWalletId = 0 :=
            inSum_of_no_wallet _ _ fun e he => Nat.ne_of_lt (hw2 e he)
          have hzo : outSum db.entries db.nextWalletId = 0 :=
            outSum_of_no_wallet _ _ fun e he => Nat.ne_of_lt (hw2 e he)
          simp [hzi, hzo]
  | post d uid =>
    cases d with
    | income wid cid dt a n =>
      show ((createIncomeTransaction wid cid dt a n uid db).1).wf ∧
        balanceInv ((createIncomeTransaction wid cid dt a n uid db).1)
      rcases createIncome_split wid cid dt a n uid db with ⟨e, heq⟩ | ⟨hany, heq⟩
      · rw [heq]
        exact ⟨⟨hw1, hw2, hw3⟩, hinv⟩
      · rw [heq]
        refine ⟨⟨applyDelta_ids_lt _ _ _ _ hw1, ?_, ?_⟩, ?_⟩
        · intro e he
          rcases List.mem_append.1 he with h | h
          · exact hw2 e h
          · rw [List.mem_singleton] at h
            subst h
            exact id_lt_of_any _ _ _ hw1 hany
        · intro e he
          rcases List.mem_append.1 he with h | h
          · exact Nat.lt_succ_of_lt (hw3 e h)
          · rw [List.mem_singleton] at h
            subst h
            exact Nat.lt_succ_self _
        · have hpost := balInvOn_post db.wallets db.entries db.nextTxnId wid
            Direction.din a hinv
          simpa [dirDelta, balanceInv] using hpost
    | expense wid cid dt a n =>
      show ((createExpenseTransaction wid cid dt a n uid db).1).wf ∧
        balanceInv ((createExpenseTransaction wid cid dt a n uid db).1)
      rcases createExpense_split wid cid dt a n uid db with ⟨e, heq⟩ | ⟨hany, heq⟩
      · rw [heq]
        exact ⟨⟨hw1, hw2, hw3⟩, hinv⟩
      · rw [heq]
        refine ⟨⟨applyDelta_ids_lt _ _ _ _ hw1, ?_, ?_⟩, ?_⟩
        · intro e he
          rcases List.mem_append.1 he with h | h
          · exact hw2 e h
          · rw [List.mem_singleton] at h
            subst h
            exact id_lt_of_any _ _ _ hw1 hany
        · intro e he
          rcases List.mem_append.1 he with h | h
          · exact Nat.lt_succ_of_lt (hw3 e h)
          · rw [List.mem_singleton] at h
            subst h
            exact Nat.lt_succ_self _
        · have hpost := balInvOn_post db.wallets db.entries db.nextTxnId wid
            Direction.dout a hinv
          simpa [dirDelta, balanceInv] using hpost
    | transfer fromW toW dt a n =>
      show ((createTransferTransaction fromW toW dt a n uid db).1).wf ∧
        balanceInv ((createTransferTransaction fromW toW dt a n uid db).1)
      rcases createTransfer_split fromW toW dt a n uid db with
        ⟨e, heq⟩ | ⟨hany1, hany2, heq⟩
      · rw [heq]
        exact ⟨⟨hw1, hw2, hw3⟩, hinv⟩
      · rw [heq]
        refine ⟨⟨applyDelta_ids_lt _ _ _ _ (applyDelta_ids_lt _ _ _ _ hw1), ?_, ?_⟩, ?_⟩
        · intro e he
          rcases List.mem_append.1 he with h | h
          · exact hw2 e h
          · rcases List.mem_cons.1 h with h' | h'
            · subst h'
              exact id_lt_of_any _ _ _ hw1 hany1
            · rw [List.mem_singleton] at h'
              subst h'
              exact id_lt_of_any _ _ _ hw1 hany2
        · intro e he
          rcases List.mem_append.1 he with h | h
          · exact Nat.lt_succ_of_lt (hw3 e h)
          · rcases List.mem_cons.1 h with h' | h'
            · subst h'
              exact Nat.lt_succ_self _
            · rw [List.mem_singleton] at h'
              subst h'
              exact Nat.lt_succ_self _
        · have h1 := balInvOn_post db.wallets db.entries db.nextTxnId fromW
            Direction.dout a hinv
          have h2 := balInvOn_post _ _ db.nextTxnId toW Direction.din a h1
          rw [List.append_assoc] at h2
          simpa [dirDelta, balanceInv] using h2

theorem find?_of_filter_singleton {α : Type} (l : List α) (p q : α → Bool) (a : α)
    (h : l.filter p = [a]) (hq : q a = true) :
    l.find? (fun x => p x && q x) = some a := by
  induction l with
  | nil => simp at h
  | cons b t ih =>
    rw [List.filter_cons] at h
    by_cases hb : p b = true
    · rw [if_pos hb] at h
      injection h with h1 h2
      subst h1
      simp [List.find?_cons, hb, hq]
    · rw [if_neg hb] at h
      have hb' : p b = false := by simpa using hb
      simp [List.find?_cons, hb', ih h]

theorem find?_of_filter_singleton_self {α : Type} (l : List α) (p : α → Bool)
    (a : α) (h : l.filter p = [a]) : l.find? p = some a := by
  induction l with
  | nil => simp at h
  | cons b t ih =>
    rw [List.filter_cons] at h
    by_cases hb : p b = true
    · rw [if_pos hb] at h
      injection h with h1 h2
      subst h1
      simp [List.find?_cons, hb]
    · rw [if_neg hb] at h
      have hb' : p b = false := by simpa using hb
      simp [List.find?_cons, hb', ih h]

/-- From a unique-row hypothesis, the ownership query of
`validateWalletOwnership` resolves to that row. -/
theorem validateWalletOwnership_of_unique (wid : Nat) (uid : String) (db : DB)
    (w0 : Wallet) (hfil : db.wallets.filter (fun w => w.id == wid) = [w0])
    (howner : w0.userId = uid) (harch : w0.isArchived = false) :
    validateWalletOwnership wid uid db = .ok w0 := by
  have h1 := find?_of_filter_singleton db.wallets (fun w => w.id == wid)
    (fun w => w.userId == uid && !w.isArchived) w0 hfil (by simp [howner, harch])
  have h2 : findWalletOwned db wid uid = some w0 := by
    rw [findWalletOwned]
    simpa only [← Bool.and_assoc] using h1
  rw [validateWalletOwnership, h2]

/-- Fully reduced success path of `createIncomeTransaction`. -/
theorem createIncome_success (wid cid dt : Nat) (a : Int) (n : Option String)
    (uid : String) (db : DB) (w0 : Wallet) (cat : Category)
    (hv : validateWalletOwnership wid uid db = .ok w0)
    (hc : validateCategoryOwnership cid uid .income db = .ok cat)
    (hany : db.wallets.any (fun w => w.id == wid) = true) :
    createIncomeTransaction wid cid dt a n uid db =
      ({ db with
           wallets := applyDelta wid a db.wallets
           transactions := db.transactions ++
             [{ id := db.nextTxnId, userId := uid, txType := .income,
                categoryId := some cid, transactionDate := dt, amount := a,
                note := n, deleted := false }]
           entries := db.entries ++
             [{ transactionId := db.nextTxnId, walletId := wid,
                direction := .din, amount := a }]
           nextTxnId := db.nextTxnId + 1 },
       .ok { id := db.nextTxnId, userId := uid, txType := .income,
             categoryId := some cid, transactionDate := dt, amount := a,
             note := n, deleted := false }) := by
  unfold createIncomeTransaction
  rw [hv, hc]
  simp [runAtomic, txnCreate, walletUpdateBalance, hany]

/-- Fully reduced success path of `createExpenseTransaction`. -/
theorem createExpense_success (wid cid dt : Nat) (a : Int) (n : Option String)
    (uid : String) (db : DB) (w0 : Wallet) (cat : Category)
    (hv : validateWalletOwnership wid uid db = .ok w0)
    (hc : validateCategoryOwnership cid uid .expense db = .ok cat)
    (hany : db.wallets.any (fun w => w.id == wid) = true) :
    createExpenseTransaction wid cid dt a n uid db =
      ({ db with
           wallets := applyDelta wid (-a) db.wallets
           transactions := db.transactions ++
             [{ id := db.nextTxnId, userId := uid, txType := .expense,
                categoryId := some cid, transactionDate := dt, amount := a,
                note := n, deleted := false }]
           entries := db.entries ++
             [{ transactionId := db.nextTxnId, walletId := wid,
                direction := .dout, amount := a }]
           nextTxnId := db.nextTxnId + 1 },
       .ok { id := db.nextTxnId, userId := uid, txType := .expense,
             categoryId := some cid, transactionDate := dt, amount := a,
             note := n, deleted := false }) := by
  unfold createExpenseTransaction
  rw [hv, hc]
  simp [runAtomic, txnCreate, walletUpdateBalance, hany]

/-- Fully reduced success path of `createTransferTransaction`. -/
theorem createTransfer_success (fromW toW dt : Nat) (a : Int) (n : Option String)
    (uid : String) (db : DB) (w1 w2 : Wallet)
    (hne : (fromW == toW) = false)
    (hv1 : validateWalletOwnership fromW uid db = .ok w1)
    (hv2 : validateWalletOwnership toW uid db = .ok w2)
    (hany1 : db.wallets.any (fun w => w.id == fromW) = true)
    (hany2 : db.wallets.any (fun w => w.id == toW) = true) :
    createTransferTransaction fromW toW dt a n uid db =
      ({ db with
           wallets := applyDelta toW a (applyDelta fromW (-a) db.wallets)
           transactions := db.transactions ++
             [{ id := db.nextTxnId, userId := uid, txType := .transfer,
                categoryId := none, transactionDate := dt, amount := a,
                note := n, deleted := false }]
           entries := db.entries ++
             [{ transactionId := db.nextTxnId, walletId := fromW,
                direction := .dout, amount := a },
              { transactionId := db.nextTxnId, walletId := toW,
                direction := .din, amount := a }]
           nextTxnId := db.nextTxnId + 1 },
       .ok { id := db.nextTxnId, userId := uid, txType := .transfer,
             categoryId := none, transactionDate := dt, amount := a,
             note := n, deleted := false }) := by
  unfold createTransferTransaction
  rw [hne]
  have hany2' : (applyDelta fromW (-a) db.wallets).any (fun w => w.id == toW) = true := by
    rw [applyDelta, any_map_pres _ _ (fun w => by rw [applyDelta_row_id]) db.wallets]
    exact hany2
  simp only [Bool.false_eq_true, if_false]
  rw [hv1, hv2]
  simp [runAtomic, txnCreate, walletUpdateBalance, hany1, hany2']

/-- The only error `validateWalletOwnership` raises. -/
theorem validateWalletOwnership_err_code (wid : Nat) (uid : String) (db : DB)
    (e : Err) (h : validateWalletOwnership wid uid db = .error e) :
    e = .TRANSACTION_WALLET_NOT_FOUND := by
  unfold validateWalletOwnership at h
  split at h
  · exact Except.noConfusion h
  · injection h with h1
    exact h1.symm

/-- The only errors `validateCategoryOwnership` raises. -/
theorem validateCategoryOwnership_err_code (cid : Nat) (uid : String)
    (tt : TxType) (db : DB) (e : Err)
    (h : validateCategoryOwnership cid uid tt db = .error e) :
    e = .TRANSACTION_CATEGORY_NOT_FOUND ∨ e = .INVALID_CATEGORY_TYPE_FOR_INCOME ∨
      e = .INVALID_CATEGORY_TYPE_FOR_EXPENSE := by
  unfold validateCategoryOwnership at h
  split at h
  · injection h with h1
    exact Or.inl h1.symm
  · split at h
    · injection h with h1
      exact Or.inr (Or.inl h1.symm)
    · split at h
      · injection h with h1
        exact Or.inr (Or.inr h1.symm)
      · exact Except.noConfusion h

theorem createIncome_eq_of_vwallet_err (wid cid dt : Nat) (a : Int)
    (n : Option String) (uid : String) (db : DB) (e1 : Err)
    (hv : validateWalletOwnership wid uid db = .error e1) :
    createIncomeTransaction wid cid dt a n uid db = (db, .error e1) := by
  unfold createIncomeTransaction
  rw [hv]

theorem createIncome_eq_of_vcat_err (wid cid dt : Nat) (a : Int)
    (n : Option String) (uid : String) (db : DB) (w : Wallet) (e2 : Err)
    (hv : validateWalletOwnership wid uid db = .ok w)
    (hc : validateCategoryOwnership cid uid .income db = .error e2) :
    createIncomeTransaction wid cid dt a n uid db = (db, .error e2) := by
  unfold createIncomeTransaction
  rw [hv, hc]

theorem createIncome_eq_of_no_row (wid cid dt : Nat) (a : Int)
    (n : Option String) (uid : String) (db : DB) (w : Wallet) (c : Category)
    (hv : validateWalletOwnership wid uid db = .ok w)
    (hc : validateCategoryOwnership cid uid .income db = .ok c)
    (hany : db.wallets.any (fun w => w.id == wid) = false) :
    createIncomeTransaction wid cid dt a n uid db = (db, .error .RECORD_NOT_FOUND) := by
  unfold createIncomeTransaction
  rw [hv, hc]
  simp [runAtomic, txnCreate, walletUpdateBalance, hany]

theorem createExpense_eq_of_vwallet_err (wid cid dt : Nat) (a : Int)
    (n : Option String) (uid : String) (db : DB) (e1 : Err)
    (hv : validateWalletOwnership wid uid db = .error e1) :
    createExpenseTransaction wid cid dt a n uid db = (db, .error e1) := by
  unfold createExpenseTransaction
  rw [hv]

theorem createExpense_eq_of_vcat_err (wid cid dt : Nat) (a : Int)
    (n : Option String) (uid : String) (db : DB) (w : Wallet) (e2 : Err)
    (hv : validateWalletOwnership wid uid db = .ok w)
    (hc : validateCategoryOwnership cid uid .expense db = .error e2) :
    createExpenseTransaction wid cid dt a n uid db = (db, .error e2) := by
  unfold createExpenseTransaction
  rw [hv, hc]

theorem createExpense_eq_of_no_row (wid cid dt : Nat) (a : Int)
    (n : Option String) (uid : String) (db : DB) (w : Wallet) (c : Category)
    (hv : validateWalletOwnership wid uid db = .ok w)
    (hc : validateCategoryOwnership cid uid .expense db = .ok c)
    (hany : db.wallets.any (fun w => w.id == wid) = false) :
    createExpenseTransaction wid cid dt a n uid db = (db, .error .RECORD_NOT_FOUND) := by
  unfold createExpenseTransaction
  rw [hv, hc]
  simp [runAtomic, txnCreate, walletUpdateBalance, hany]

theorem createTransfer_eq_of_same (fromW dt : Nat) (a : Int)
    (n : Option String) (uid : String) (db : DB) :
    createTransferTransaction fromW fromW dt a n uid db =
      (db, .error .SAME_WALLET_TRANSFER) := by
  unfold createTransferTransaction
  simp

theorem createTransfer_eq_of_v1_err (fromW toW dt : Nat) (a : Int)
    (n : Option String) (uid : String) (db : DB) (e1 : Err)
    (hne : (fromW == toW) = false)
    (hv1 : validateWalletOwnership fromW uid db = .error e1) :
    createTransferTransaction fromW toW dt a n uid db = (db, .error e1) := by
  unfold createTransferTransaction
  rw [hne]
  simp only [Bool.false_eq_true, if_false]
  rw [hv1]

theorem createTransfer_eq_of_v2_err (fromW toW dt : Nat) (a : Int)
    (n : Option String) (uid : String) (db : DB) (w1 : Wallet) (e2 : Err)
    (hne : (fromW == toW) = false)
    (hv1 : validateWalletOwnership fromW uid db = .ok w1)
    (hv2 : validateWalletOwnership toW uid db = .error e2) :
    createTransferTransaction fromW toW dt a n uid db = (db, .error e2) := by
  unfold createTransferTransaction
  rw [hne]
  simp only [Bool.false_eq_true, if_false]
  rw [hv1, hv2]

theorem createTransfer_eq_of_no_row1 (fromW toW dt : Nat) (a : Int)
    (n : Option String) (uid : String) (db : DB) (w1 w2 : Wallet)
    (hne : (fromW == toW) = false)
    (hv1 : validateWalletOwnership fromW uid db = .ok w1)
    (hv2 : validateWalletOwnership toW uid db = .ok w2)
    (hany1 : db.wallets.any (fun w => w.id == fromW) = false) :
    createTransferTransaction fromW toW dt a n uid db =
      (db, .error .RECORD_NOT_FOUND) := by
  unfold createTransferTransaction
  rw [hne]
  simp only [Bool.false_eq_true, if_false]
  rw [hv1, hv2]
  simp [runAtomic, txnCreate, walletUpdateBalance, hany1]

theorem createTransfer_eq_of_no_row2 (fromW toW dt : Nat) (a : Int)
    (n : Option String) (uid : String) (db : DB) (w1 w2 : Wallet)
    (hne : (fromW == toW) = false)
    (hv1 : validateWalletOwnership fromW uid db = .ok w1)
    (hv2 : validateWalletOwnership toW uid db = .ok w2)
    (hany1 : db.wallets.any (fun w => w.id == fromW) = true)
    (hany2 : db.wallets.any (fun w => w.id == toW) = false) :
    createTransferTransaction fromW toW dt a n uid db =
      (db, .error .RECORD_NOT_FOUND) := by
  unfold createTransferTransaction
  rw [hne]
  simp only [Bool.false_eq_true, if_false]
  rw [hv1, hv2]
  have hany2' : (applyDelta fromW (-a) db.wallets).any (fun w => w.id == toW) = false := by
    rw [applyDelta, any_map_pres _ _ (fun w => by rw [applyDelta_row_id]) db.wallets]
    exact hany2
  simp [runAtomic, txnCreate, walletUpdateBalance, hany1, hany2']

/-- Classification of every error the income path can raise. -/
theorem createIncome_err_code (wid cid dt : Nat) (a : Int) (n : Option String)
    (uid : String) (db : DB) (e : Err)
    (h : (createIncomeTransaction wid cid dt a n uid db).2 = .error e) :
    e = .TRANSACTION_WALLET_NOT_FOUND ∨ e = .TRANSACTION_CATEGORY_NOT_FOUND ∨
      e = .INVALID_CATEGORY_TYPE_FOR_INCOME ∨ e = .INVALID_CATEGORY_TYPE_FOR_EXPENSE ∨
      e = .RECORD_NOT_FOUND := by
  cases hv : validateWalletOwnership wid uid db with
  | error e1 =>
    rw [createIncome_eq_of_vwallet_err wid cid dt a n uid db e1 hv] at h
    simp at h
    subst h
    exact Or.inl (validateWalletOwnership_err_code _ _ _ _ hv)
  | ok w =>
    cases hc : validateCategoryOwnership cid uid .income db with
    | error e2 =>
      rw [createIncome_eq_of_vcat_err wid cid dt a n uid db w e2 hv hc] at h
      simp at h
      subst h
      rcases validateCategoryOwnership_err_code _ _ _ _ _ hc with h1 | h1 | h1
      · exact Or.inr (Or.inl h1)
      · exact Or.inr (Or.inr (Or.inl h1))
      · exact Or.inr (Or.inr (Or.inr (Or.inl h1)))
    | ok c =>
      by_cases hany : db.wallets.any (fun w => w.id == wid) = true
      · rw [createIncome_success wid cid dt a n uid db w c hv hc hany] at h
        simp at h
      · have hany' : db.wallets.any (fun w => w.id == wid) = false := by
          simpa using hany
        rw [createIncome_eq_of_no_row wid cid dt a n uid db w c hv hc hany'] at h
        simp at h
        subst h
        exact Or.inr (Or.inr (Or.inr (Or.inr rfl)))

/-- Classification of every error the expense path can raise. -/
theorem createExpense_err_code (wid cid dt : Nat) (a : Int) (n : Option String)
    (uid : String) (db : DB) (e : Err)
    (h : (createExpenseTransaction wid cid dt a n uid db).2 = .error e) :
    e = .TRANSACTION_WALLET_NOT_FOUND ∨ e = .TRANSACTION_CATEGORY_NOT_FOUND ∨
      e = .INVALID_CATEGORY_TYPE_FOR_INCOME ∨ e = .INVALID_CATEGORY_TYPE_FOR_EXPENSE ∨
      e = .RECORD_NOT_FOUND := by
  cases hv : validateWalletOwnership wid uid db with
  | error e1 =>
    rw [createExpense_eq_of_vwallet_err wid cid dt a n uid db e1 hv] at h
    simp at h
    subst h
    exact Or.inl (validateWalletOwnership_err_code _ _ _ _ hv)
  | ok w =>
    cases hc : validateCategoryOwnership cid uid .expense db with
    | error e2 =>
      rw [createExpense_eq_of_vcat_err wid cid dt a n uid db w e2 hv hc] at h
      simp at h
      subst h
      rcases validateCategoryOwnership_err_code _ _ _ _ _ hc with h1 | h1 | h1
      · exact Or.inr (Or.inl h1)
      · exact Or.inr (Or.inr (Or.inl h1))
      · exact Or.inr (Or.inr (Or.inr (Or.inl h1)))
    | ok c =>
      by_cases hany : db.wallets.any (fun w => w.id == wid) = true
      · rw [createExpense_success wid cid dt a n uid db w c hv hc hany] at h
        simp at h
      · have hany' : db.wallets.any (fun w => w.id == wid) = false := by
          simpa using hany
        rw [createExpense_eq_of_no_row wid cid dt a n uid db w c hv hc hany'] at h
        simp at h
        subst h
        exact Or.inr (Or.inr (Or.inr (Or.inr rfl)))

/-- Classification of every error the transfer path can raise. -/
theorem createTransfer_err_code (fromW toW dt : Nat) (a : Int) (n : Option String)
    (uid : String) (db : DB) (e : Err)
    (h : (createTransferTransaction fromW toW dt a n uid db).2 = .error e) :
    e = .SAME_WALLET_TRANSFER ∨ e = .TRANSACTION_WALLET_NOT_FOUND ∨
      e = .RECORD_NOT_FOUND := by
  by_cases hsame : (fromW == toW) = true
  · have : fromW = toW := by simpa using hsame
    subst this
    rw [createTransfer_eq_of_same fromW dt a n uid db] at h
    simp at h
    subst h
    exact Or.inl rfl
  · have hne : (fromW == toW) = false := by simpa using hsame
    cases hv1 : validateWalletOwnership fromW uid db with
    | error e1 =>
      rw [createTransfer_eq_of_v1_err fromW toW dt a n uid db e1 hne hv1] at h
      simp at h
      subst h
      exact Or.inr (Or.inl (validateWalletOwnership_err_code _ _ _ _ hv1))
    | ok w1 =>
      cases hv2 : validateWalletOwnership toW uid db with
      | error e2 =>
        rw [createTransfer_eq_of_v2_err fromW toW dt a n uid db w1 e2 hne hv1 hv2] at h
        simp at h
        subst h
        exact Or.inr (Or.inl (validateWalletOwnership_err_code _ _ _ _ hv2))
      | ok w2 =>
        by_cases hany1 : db.wallets.any (fun w => w.id == fromW) = true
        · by_cases hany2 : db.wallets.any (fun w => w.id == toW) = true
          · rw [createTransfer_success fromW toW dt a n uid db w1 w2 hne hv1 hv2
              hany1 hany2] at h
            simp at h
          · have hany2' : db.wallets.any (fun w => w.id == toW) = false := by
              simpa using hany2
            rw [createTransfer_eq_of_no_row2 fromW toW dt a n uid db w1 w2 hne
              hv1 hv2 hany1 hany2'] at h
            simp at h
            subst h
            exact Or.inr (Or.inr rfl)
        · have hany1' : db.wallets.any (fun w => w.id == fromW) = false := by
            simpa using hany1
          rw [createTransfer_eq_of_no_row1 fromW toW dt a n uid db w1 w2 hne
            hv1 hv2 hany1'] at h
          simp at h
          subst h
          exact Or.inr (Or.inr rfl)

/-! ## Shared concrete fixtures for witnesses -/

/-- Wallet "A" of user `"u"`, balance 1000. -/
def walletA : Wallet :=
  { id := 0, userId := "u", name := "A", walletType := "cash",
    openingBalance := 1000, currentBalance := 1000, isArchived := false }

/-- Wallet "B" of user `"u"`, balance 0. -/
def walletB : Wallet :=
  { id := 1, userId := "u", name := "B", walletType := "bank",
    openingBalance := 0, currentBalance := 0, isArchived := false }

/-- An income category of user `"u"` (e.g. "Salary"). -/
def catIncome : Category := { id := 0, userId := "u", ctype := .income }

/-- An expense category of user `"u"` (e.g. "Food"). -/
def catExpense : Category := { id := 1, userId := "u", ctype := .expense }

/-- A small well-formed store: two wallets (balances 1000 and 0) and an
income and an expense category, all owned by user `"u"`. -/
def sampleDB : DB :=
  { wallets := [walletA, walletB],
    categories := [catIncome, catExpense],
    transactions := [], entries := [], nextWalletId := 2, nextTxnId := 0 }

/-- An empty store holding only the two categories. -/
def emptyDB : DB :=
  { wallets := [],
    categories :=
      [{ id := 0, userId := "u", ctype := .income },
       { id := 1, userId := "u", ctype := .expense }],
    transactions := [], entries := [], nextWalletId := 0, nextTxnId := 0 }

/-- A mixed operation sequence: wallet creations, successful postings of all
three kinds, and failing postings (same-wallet transfer, category mismatch). -/
def mixedOps : List Op :=
  [ .createWallet { name := "A", walletType := "cash", openingBalance := 1000 } "u",
    .createWallet { name := "B", walletType := "bank", openingBalance := 0 } "u",
    .post (.income 0 0 1 500 none) "u",
    .post (.expense 0 1 2 100 none) "u",
    .post (.transfer 0 1 3 200 none) "u",
    .post (.transfer 0 0 4 50 none) "u",
    .post (.income 0 1 5 10 none) "u" ]

/-! ## Claim theorems -/

/-- C1: after any sequence of wallet creations and `createTransaction`
attempts (committed or failed), every wallet's `currentBalance` equals its
`openingBalance` plus the sum of `in`-entry amounts minus the sum of
`out`-entry amounts on that wallet. -/
theorem balance_invariant_all_ops (ops : List Op) (db : DB)
    (hwf : db.wf) (hinv : balanceInv db) : balanceInv (applyOps db ops) := by
  induction ops generalizing db with
  | nil => exact hinv
  | cons op rest ih =>
    rw [applyOps, List.foldl_cons]
    exact ih (applyOp db op) (applyOp_preserves db op hwf hinv).1
      (applyOp_preserves db op hwf hinv).2

theorem balance_invariant_all_ops_witness :
    (emptyDB.wf ∧ balanceInv emptyDB) ∧ balanceInv (applyOps emptyDB mixedOps) :=
  ⟨⟨by decide, by decide⟩,
   balance_invariant_all_ops mixedOps emptyDB (by decide) (by decide)⟩

/-- C2: atomicity — whenever `createTransaction` reports an error (from
validation or from the atomic commit), the resulting store is exactly the
input store: no header, no entries, no balance movement from that attempt. -/
theorem createTransaction_atomic (data : CreateTransactionData) (uid : String)
    (db : DB) (e : Err)
    (h : (TransactionService.createTransaction data uid db).2 = .error e) :
    (TransactionService.createTransaction data uid db).1 = db := by
  cases data with
  | income wid cid dt a n =>
    rcases createIncome_split wid cid dt a n uid db with ⟨e', heq⟩ | ⟨hany, heq⟩
    · simp [TransactionService.createTransaction, heq]
    · simp [TransactionService.createTransaction, heq] at h
  | expense wid cid dt a n =>
    rcases createExpense_split wid cid dt a n uid db with ⟨e', heq⟩ | ⟨hany, heq⟩
    · simp [TransactionService.createTransaction, heq]
    · simp [TransactionService.createTransaction, heq] at h
  | transfer fromW toW dt a n =>
    rcases createTransfer_split fromW toW dt a n uid db with
      ⟨e', heq⟩ | ⟨hany1, hany2, heq⟩
    · simp [TransactionService.createTransaction, heq]
    · simp [TransactionService.createTransaction, heq] at h

theorem createTransaction_atomic_witness :
    (TransactionService.createTransaction (.transfer 0 0 1 100 none) "u" sampleDB).2
        = .error .SAME_WALLET_TRANSFER ∧
    (TransactionService.createTransaction (.transfer 0 0 1 100 none) "u" sampleDB).1
        = sampleDB :=
  ⟨rfl,
   createTransaction_atomic (.transfer 0 0 1 100 none) "u" sampleDB
     .SAME_WALLET_TRANSFER rfl⟩

/-- C4: a transfer intent whose source and destination wallet coincide fails
with `SAME_WALLET_TRANSFER` and leaves the store untouched, for every wallet
id, amount, date, note, user and store. -/
theorem transfer_same_wallet_rejected (w dt : Nat) (a : Int) (n : Option String)
    (uid : String) (db : DB) :
    TransactionService.createTransaction (.transfer w w dt a n) uid db =
      (db, .error .SAME_WALLET_TRANSFER) := by
  simp [TransactionService.createTransaction, createTransferTransaction]

/-- C8: a valid income intent (wallet owned and active, category owned with
type income, positive amount) commits, raises the wallet's balance by exactly
the amount, and creates a transaction with exactly one entry, direction `in`,
of that amount. -/
theorem income_posting_effect (wid cid dt : Nat) (a : Int) (n : Option String)
    (uid : String) (db : DB) (w0 : Wallet) (cat : Category)
    (hfil : db.wallets.filter (fun w => w.id == wid) = [w0])
    (howner : w0.userId = uid) (harch : w0.isArchived = false)
    (hcat : db.categories.find? (fun c => c.id == cid && c.userId == uid) = some cat)
    (hct : cat.ctype = .income)
    (hfresh : ∀ e ∈ db.entries, e.transactionId ≠ db.nextTxnId)
    (hpos : 0 < a) :
    ∃ t, (TransactionService.createTransaction (.income wid cid dt a n) uid db).2
        = .ok t ∧
      ((TransactionService.createTransaction (.income wid cid dt a n) uid db).1.wallets.filter
          fun w => w.id == wid)
        = [{ w0 with currentBalance := w0.currentBalance + a }] ∧
      ((TransactionService.createTransaction (.income wid cid dt a n) uid db).1.entries.filter
          fun e => e.transactionId == t.id)
        = [{ transactionId := t.id, walletId := wid, direction := .din, amount := a }] := by
  have hmem := mem_of_filter_singleton _ _ _ hfil
  have hv := validateWalletOwnership_of_unique wid uid db w0 hfil howner harch
  have hc : validateCategoryOwnership cid uid .income db = .ok cat := by
    rw [validateCategoryOwnership, hcat]
    simp [hct]
  have hany : db.wallets.any (fun w => w.id == wid) = true :=
    List.any_eq_true.2 ⟨w0, hmem.1, hmem.2⟩
  have hr := createIncome_success wid cid dt a n uid db w0 cat hv hc hany
  refine ⟨{ id := db.nextTxnId, userId := uid, txType := .income,
            categoryId := some cid, transactionDate := dt, amount := a,
            note := n, deleted := false }, ?_, ?_, ?_⟩
  · simp [TransactionService.createTransaction, hr]
  · simp only [TransactionService.createTransaction, hr]
    rw [applyDelta, filter_map_pres _ _ (fun w => by rw [applyDelta_row_id]), hfil]
    have hid0 : w0.id = wid := by simpa using hmem.2
    simp [hid0]
  · simp only [TransactionService.createTransaction, hr]
    rw [List.filter_append]
    have hnil : db.entries.filter (fun e => e.transactionId == db.nextTxnId) = [] := by
      rw [List.filter_eq_nil_iff]
      intro e he
      simp [hfresh e he]
    simp [hnil]

theorem income_posting_effect_witness :
    ∃ t, (TransactionService.createTransaction (.income 0 0 1 500 none) "u" sampleDB).2
        = .ok t ∧
      ((TransactionService.createTransaction (.income 0 0 1 500 none) "u" sampleDB).1.wallets.filter
          fun w => w.id == 0)
        = [{ walletA with currentBalance := walletA.currentBalance + 500 }] ∧
      ((TransactionService.createTransaction (.income 0 0 1 500 none) "u" sampleDB).1.entries.filter
          fun e => e.transactionId == t.id)
        = [{ transactionId := t.id, walletId := 0, direction := .din, amount := 500 }] :=
  income_posting_effect 0 0 1 500 none "u" sampleDB walletA catIncome rfl rfl rfl
    rfl rfl (by intro e he; simp [sampleDB] at he) (by decide)

/-- C3: a committed transfer of amount `a` between two distinct owned active
wallets lowers the source balance by exactly `a`, raises the destination
balance by exactly `a`, keeps the two balances' sum unchanged, and creates a
transaction with exactly two entries — `out` on the source and `in` on the
destination — both of amount `a`. -/
theorem transfer_zero_sum (fromW toW dt : Nat) (a : Int) (n : Option String)
    (uid : String) (db : DB) (w1 w2 : Wallet)
    (hne : fromW ≠ toW)
    (hfil1 : db.wallets.filter (fun w => w.id == fromW) = [w1])
    (howner1 : w1.userId = uid) (harch1 : w1.isArchived = false)
    (hfil2 : db.wallets.filter (fun w => w.id == toW) = [w2])
    (howner2 : w2.userId = uid) (harch2 : w2.isArchived = false)
    (hfresh : ∀ e ∈ db.entries, e.transactionId ≠ db.nextTxnId)
    (hpos : 0 < a) :
    ∃ t, (TransactionService.createTransaction (.transfer fromW toW dt a n) uid db).2
        = .ok t ∧
      ((TransactionService.createTransaction (.transfer fromW toW dt a n) uid db).1.wallets.filter
          fun w => w.id == fromW)
        = [{ w1 with currentBalance := w1.currentBalance - a }] ∧
      ((TransactionService.createTransaction (.transfer fromW toW dt a n) uid db).1.wallets.filter
          fun w => w.id == toW)
        = [{ w2 with currentBalance := w2.currentBalance + a }] ∧
      (w1.currentBalance - a) + (w2.currentBalance + a)
        = w1.currentBalance + w2.currentBalance ∧
      ((TransactionService.createTransaction (.transfer fromW toW dt a n) uid db).1.entries.filter
          fun e => e.transactionId == t.id)
        = [{ transactionId := t.id, walletId := fromW, direction := .dout, amount := a },
           { transactionId := t.id, walletId := toW, direction := .din, amount := a }] := by
  have hmem1 := mem_of_filter_singleton _ _ _ hfil1
  have hmem2 := mem_of_filter_singleton _ _ _ hfil2
  have hv1 := validateWalletOwnership_of_unique fromW uid db w1 hfil1 howner1 harch1
  have hv2 := validateWalletOwnership_of_unique toW uid db w2 hfil2 howner2 harch2
  have hany1 : db.wallets.any (fun w => w.id == fromW) = true :=
    List.any_eq_true.2 ⟨w1, hmem1.1, hmem1.2⟩
  have hany2 : db.wallets.any (fun w => w.id == toW) = true :=
    List.any_eq_true.2 ⟨w2, hmem2.1, hmem2.2⟩
  have hneb : (fromW == toW) = false := by simp [hne]
  have hr := createTransfer_success fromW toW dt a n uid db w1 w2 hneb hv1 hv2
    hany1 hany2
  have hid1 : w1.id = fromW := by simpa using hmem1.2
  have hid2 : w2.id = toW := by simpa using hmem2.2
  refine ⟨{ id := db.nextTxnId, userId := uid, txType := .transfer,
            categoryId := none, transactionDate := dt, amount := a,
            note := n, deleted := false }, ?_, ?_, ?_, by ring, ?_⟩
  · simp [TransactionService.createTransaction, hr]
  · simp only [TransactionService.createTransaction, hr]
    rw [applyDelta, filter_map_pres _ _ (fun w => by rw [applyDelta_row_id]),
      applyDelta, filter_map_pres _ _ (fun w => by rw [applyDelta_row_id]), hfil1]
    simp [hid1, hneb, sub_eq_add_neg]
    exact fun h => absurd h hne
  · simp only [TransactionService.createTransaction, hr]
    rw [applyDelta, filter_map_pres _ _ (fun w => by rw [applyDelta_row_id]),
      applyDelta, filter_map_pres _ _ (fun w => by rw [applyDelta_row_id]), hfil2]
    simp [hid2, Ne.symm hne]
  · simp only [TransactionService.createTransaction, hr]
    rw [List.filter_append]
    have hnil : db.entries.filter (fun e => e.transactionId == db.nextTxnId) = [] := by
      rw [List.filter_eq_nil_iff]
      intro e he
      simp [hfresh e he]
    simp [hnil]

theorem transfer_zero_sum_witness :
    ∃ t, (TransactionService.createTransaction (.transfer 0 1 3 200 none) "u" sampleDB).2
        = .ok t ∧
      ((TransactionService.createTransaction (.transfer 0 1 3 200 none) "u" sampleDB).1.wallets.filter
          fun w => w.id == 0)
        = [{ walletA with currentBalance := walletA.currentBalance - 200 }] ∧
      ((TransactionService.createTransaction (.transfer 0 1 3 200 none) "u" sampleDB).1.wallets.filter
          fun w => w.id == 1)
        = [{ walletB with currentBalance := walletB.currentBalance + 200 }] ∧
      (walletA.currentBalance - 200) + (walletB.currentBalance + 200)
        = walletA.currentBalance + walletB.currentBalance ∧
      ((TransactionService.createTransaction (.transfer 0 1 3 200 none) "u" sampleDB).1.entries.filter
          fun e => e.transactionId == t.id)
        = [{ transactionId := t.id, walletId := 0, direction := .dout, amount := 200 },
           { transactionId := t.id, walletId := 1, direction := .din, amount := 200 }] :=
  transfer_zero_sum 0 1 3 200 none "u" sampleDB walletA walletB (by decide) rfl rfl
    rfl rfl rfl rfl (by intro e he; simp [sampleDB] at he) (by decide)

/-- C5: with the wallet check passing, an income intent whose category is
owned but expense-typed fails with `INVALID_CATEGORY_TYPE_FOR_INCOME`, and an
expense intent with an income-typed category fails with
`INVALID_CATEGORY_TYPE_FOR_EXPENSE`; both leave the store untouched, so no
entries are created. -/
theorem category_type_mismatch_rejected (wid cid dt : Nat) (a : Int)
    (n : Option String) (uid : String) (db : DB) :
    (∀ w0 cat, validateWalletOwnership wid uid db = .ok w0 →
      db.categories.find? (fun c => c.id == cid && c.userId == uid) = some cat →
      cat.ctype = .expense →
      TransactionService.createTransaction (.income wid cid dt a n) uid db =
        (db, .error .INVALID_CATEGORY_TYPE_FOR_INCOME)) ∧
    (∀ w0 cat, validateWalletOwnership wid uid db = .ok w0 →
      db.categories.find? (fun c => c.id == cid && c.userId == uid) = some cat →
      cat.ctype = .income →
      TransactionService.createTransaction (.expense wid cid dt a n) uid db =
        (db, .error .INVALID_CATEGORY_TYPE_FOR_EXPENSE)) := by
  constructor
  · intro w0 cat hv hcat hct
    have hc : validateCategoryOwnership cid uid .income db =
        .error .INVALID_CATEGORY_TYPE_FOR_INCOME := by
      rw [validateCategoryOwnership, hcat]
      simp [hct]
    simp only [TransactionService.createTransaction]
    exact createIncome_eq_of_vcat_err wid cid dt a n uid db w0 _ hv hc
  · intro w0 cat hv hcat hct
    have hc : validateCategoryOwnership cid uid .expense db =
        .error .INVALID_CATEGORY_TYPE_FOR_EXPENSE := by
      rw [validateCategoryOwnership, hcat]
      simp [hct]
    simp only [TransactionService.createTransaction]
    exact createExpense_eq_of_vcat_err wid cid dt a n uid db w0 _ hv hc

theorem category_type_mismatch_rejected_witness :
    TransactionService.createTransaction (.income 0 1 1 50 none) "u" sampleDB =
      (sampleDB, .error .INVALID_CATEGORY_TYPE_FOR_INCOME) ∧
    TransactionService.createTransaction (.expense 0 0 1 50 none) "u" sampleDB =
      (sampleDB, .error .INVALID_CATEGORY_TYPE_FOR_EXPENSE) :=
  ⟨(category_type_mismatch_rejected 0 1 1 50 none "u" sampleDB).1 walletA
      catExpense rfl rfl rfl,
   (category_type_mismatch_rejected 0 0 1 50 none "u" sampleDB).2 walletA
      catIncome rfl rfl rfl⟩

/-- C6: archiving (`deleteWallet`) of an owned wallet fails with the
`WALLET_HAS_TRANSACTIONS` code — the spec's `HAS_ENTRIES` failure — and
leaves the store (hence the wallet's archived flag) untouched whenever any
entry references the wallet; the entry check reads the entry table without
filtering on the parent transaction's soft-delete marker, so soft-deleted
transactions' entries count. Conversely a successful archive implies the
wallet had zero entries and the returned wallet is archived. -/
theorem archive_requires_no_entries (wid : Nat) (uid : String) (db : DB)
    (w0 : Wallet)
    (hfind : db.wallets.find? (fun w => w.id == wid && w.userId == uid) = some w0) :
    (db.entries.any (fun e => e.walletId == wid) = true →
      WalletService.deleteWallet wid uid db = (db, .error .WALLET_HAS_TRANSACTIONS)) ∧
    (∀ w', (WalletService.deleteWallet wid uid db).2 = .ok w' →
      db.entries.filter (fun e => e.walletId == wid) = [] ∧ w'.isArchived = true) := by
  constructor
  · intro hany
    unfold WalletService.deleteWallet
    rw [hfind]
    simp [hany]
  · intro w' h
    unfold WalletService.deleteWallet at h
    rw [hfind] at h
    by_cases hany : db.entries.any (fun e => e.walletId == wid) = true
    · simp [hany] at h
    · have hany' : db.entries.any (fun e => e.walletId == wid) = false := by
        simpa using hany
      simp [hany'] at h
      constructor
      · rw [List.filter_eq_nil_iff]
        intro e he
        have := (List.any_eq_false).1 hany' e he
        simpa using this
      · rw [← h]

/-- A soft-deleted expense transaction (its `deletedAt` marker set). -/
def softDeletedTxn : Txn :=
  { id := 0, userId := "u", txType := .expense, categoryId := some 1,
    transactionDate := 1, amount := 50, note := none, deleted := true }

/-- The single entry of `softDeletedTxn`, referencing wallet "A". -/
def entryOnA : Entry :=
  { transactionId := 0, walletId := 0, direction := .dout, amount := 50 }

/-- Store where wallet "A" carries one entry belonging to a soft-deleted
transaction and wallet "B" carries none. -/
def archDB : DB :=
  { wallets := [walletA, walletB],
    categories := [catIncome, catExpense],
    transactions := [softDeletedTxn], entries := [entryOnA],
    nextWalletId := 2, nextTxnId := 1 }

theorem archive_requires_no_entries_witness :
    (archDB.entries.any (fun e => e.walletId == 0) = true ∧
      WalletService.deleteWallet 0 "u" archDB =
        (archDB, .error .WALLET_HAS_TRANSACTIONS)) ∧
    ((WalletService.deleteWallet 1 "u" archDB).2 =
        .ok { walletB with isArchived := true } ∧
      archDB.entries.filter (fun e => e.walletId == 1) = [] ∧
      ({ walletB with isArchived := true } : Wallet).isArchived = true) :=
  ⟨⟨rfl, (archive_requires_no_entries 0 "u" archDB walletA rfl).1 rfl⟩,
   ⟨rfl, (archive_requires_no_entries 1 "u" archDB walletB rfl).2
      { walletB with isArchived := true } rfl⟩⟩

/-- C10: the transaction path performs no balance-sufficiency check: an
expense (or transfer) whose amount exceeds the source wallet's balance still
commits and drives that balance negative, and no input whatsoever makes
`createTransaction` fail with `INSUFFICIENT_BALANCE` (the code declares that
error in its `ErrorMap` but never raises it). -/
theorem overdraft_commits_no_insufficient_balance (wid cid fromW toW dt : Nat)
    (a : Int) (n : Option String) (uid : String) (db : DB)
    (w0 w1 w2 : Wallet) (cat : Category) :
    (db.wallets.filter (fun w => w.id == wid) = [w0] → w0.userId = uid →
      w0.isArchived = false →
      db.categories.find? (fun c => c.id == cid && c.userId == uid) = some cat →
      cat.ctype = .expense → w0.currentBalance < a →
      (∃ t, (TransactionService.createTransaction (.expense wid cid dt a n) uid db).2
          = .ok t) ∧
      ((TransactionService.createTransaction (.expense wid cid dt a n) uid db).1.wallets.filter
          fun w => w.id == wid)
        = [{ w0 with currentBalance := w0.currentBalance - a }] ∧
      w0.currentBalance - a < 0) ∧
    (fromW ≠ toW →
      db.wallets.filter (fun w => w.id == fromW) = [w1] → w1.userId = uid →
      w1.isArchived = false →
      db.wallets.filter (fun w => w.id == toW) = [w2] → w2.userId = uid →
      w2.isArchived = false → w1.currentBalance < a →
      (∃ t, (TransactionService.createTransaction (.transfer fromW toW dt a n) uid db).2
          = .ok t) ∧
      ((TransactionService.createTransaction (.transfer fromW toW dt a n) uid db).1.wallets.filter
          fun w => w.id == fromW)
        = [{ w1 with currentBalance := w1.currentBalance - a }] ∧
      w1.currentBalance - a < 0) ∧
    (∀ (data : CreateTransactionData) (uid2 : String) (db2 : DB),
      (TransactionService.createTransaction data uid2 db2).2
        ≠ .error .INSUFFICIENT_BALANCE) := by
  refine ⟨?_, ?_, ?_⟩
  · intro hfil howner harch hcat hct hlt
    have hmem := mem_of_filter_singleton _ _ _ hfil
    have hv := validateWalletOwnership_of_unique wid uid db w0 hfil howner harch
    have hc : validateCategoryOwnership cid uid .expense db = .ok cat := by
      rw [validateCategoryOwnership, hcat]
      simp [hct]
    have hany : db.wallets.any (fun w => w.id == wid) = true :=
      List.any_eq_true.2 ⟨w0, hmem.1, hmem.2⟩
    have hr := createExpense_success wid cid dt a n uid db w0 cat hv hc hany
    have hid0 : w0.id = wid := by simpa using hmem.2
    refine ⟨⟨{ id := db.nextTxnId, userId := uid, txType := .expense,
               categoryId := some cid, transactionDate := dt, amount := a,
               note := n, deleted := false },
             by simp [TransactionService.createTransaction, hr]⟩, ?_, by omega⟩
    simp only [TransactionService.createTransaction, hr]
    rw [applyDelta, filter_map_pres _ _ (fun w => by rw [applyDelta_row_id]), hfil]
    simp [hid0, sub_eq_add_neg]
  · intro hne hfil1 howner1 harch1 hfil2 howner2 harch2 hlt
    have hmem1 := mem_of_filter_singleton _ _ _ hfil1
    have hmem2 := mem_of_filter_singleton _ _ _ hfil2
    have hv1 := validateWalletOwnership_of_unique fromW uid db w1 hfil1 howner1 harch1
    have hv2 := validateWalletOwnership_of_unique toW uid db w2 hfil2 howner2 harch2
    have hany1 : db.wallets.any (fun w => w.id == fromW) = true :=
      List.any_eq_true.2 ⟨w1, hmem1.1, hmem1.2⟩
    have hany2 : db.wallets.any (fun w => w.id == toW) = true :=
      List.any_eq_true.2 ⟨w2, hmem2.1, hmem2.2⟩
    have hneb : (fromW == toW) = false := by simp [hne]
    have hr := createTransfer_success fromW toW dt a n uid db w1 w2 hneb hv1 hv2
      hany1 hany2
    have hid1 : w1.id = fromW := by simpa using hmem1.2
    refine ⟨⟨{ id := db.nextTxnId, userId := uid, txType := .transfer,
               categoryId := none, transactionDate := dt, amount := a,
               note := n, deleted := false },
             by simp [TransactionService.createTransaction, hr]⟩, ?_, by omega⟩
    simp only [TransactionService.createTransaction, hr]
    rw [applyDelta, filter_map_pres _ _ (fun w => by rw [applyDelta_row_id]),
      applyDelta, filter_map_pres _ _ (fun w => by rw [applyDelta_row_id]), hfil1]
    simp [hid1, hneb, sub_eq_add_neg]
    exact fun h => absurd h hne
  · intro data uid2 db2 h
    cases data with
    | income wid2 cid2 dt2 a2 n2 =>
      rcases createIncome_err_code wid2 cid2 dt2 a2 n2 uid2 db2 _
          (by simpa [TransactionService.createTransaction] using h) with
        h1 | h1 | h1 | h1 | h1 <;> exact Err.noConfusion h1
    | expense wid2 cid2 dt2 a2 n2 =>
      rcases createExpense_err_code wid2 cid2 dt2 a2 n2 uid2 db2 _
          (by simpa [TransactionService.createTransaction] using h) with
        h1 | h1 | h1 | h1 | h1 <;> exact Err.noConfusion h1
    | transfer fromW2 toW2 dt2 a2 n2 =>
      rcases createTransfer_err_code fromW2 toW2 dt2 a2 n2 uid2 db2 _
          (by simpa [TransactionService.createTransaction] using h) with
        h1 | h1 | h1 <;> exact Err.noConfusion h1

theorem overdraft_commits_no_insufficient_balance_witness :
    ((∃ t, (TransactionService.createTransaction (.expense 1 1 7 50 none) "u" sampleDB).2
        = .ok t) ∧
      ((TransactionService.createTransaction (.expense 1 1 7 50 none) "u" sampleDB).1.wallets.filter
          fun w => w.id == 1)
        = [{ walletB with currentBalance := walletB.currentBalance - 50 }] ∧
      walletB.currentBalance - 50 < 0) ∧
    ((∃ t, (TransactionService.createTransaction (.transfer 1 0 7 50 none) "u" sampleDB).2
        = .ok t) ∧
      ((TransactionService.createTransaction (.transfer 1 0 7 50 none) "u" sampleDB).1.wallets.filter
          fun w => w.id == 1)
        = [{ walletB with currentBalance := walletB.currentBalance - 50 }] ∧
      walletB.currentBalance - 50 < 0) ∧
    ((TransactionService.createTransaction (.expense 1 1 7 50 none) "u" sampleDB).2
        ≠ .error .INSUFFICIENT_BALANCE) :=
  ⟨(overdraft_commits_no_insufficient_balance 1 1 1 0 7 50 none "u" sampleDB
      walletB walletB walletA catExpense).1 rfl rfl rfl rfl rfl (by decide),
   (overdraft_commits_no_insufficient_balance 1 1 1 0 7 50 none "u" sampleDB
      walletB walletB walletA catExpense).2.1 (by decide) rfl rfl rfl rfl rfl rfl
      (by decide),
   (overdraft_commits_no_insufficient_balance 1 1 1 0 7 50 none "u" sampleDB
      walletB walletB walletA catExpense).2.2 (.expense 1 1 7 50 none) "u" sampleDB⟩

/-! ## Goal aggregation (claim C7) -/

theorem eq_of_filter_singleton {α : Type} (l : List α) (p : α → Bool) (a x : α)
    (h : l.filter p = [a]) (hx : x ∈ l) (hpx : p x = true) : x = a := by
  have hm : x ∈ l.filter p := List.mem_filter.2 ⟨hx, hpx⟩
  rw [h] at hm
  exact List.mem_singleton.1 hm

theorem map_update_self {α : Type} (l : List α) (p : α → Bool) (a : α)
    (h : ∀ x ∈ l, p x = true → x = a) :
    (l.map fun x => if p x then a else x) = l := by
  induction l with
  | nil => rfl
  | cons b tl ih =>
    simp only [List.map_cons]
    by_cases hb : p b = true
    · rw [if_pos hb, h b (List.mem_cons_self b tl) hb]
      rw [ih fun x hx hpx => h x (List.mem_cons_of_mem b hx) hpx]
    · rw [if_neg hb, ih fun x hx hpx => h x (List.mem_cons_of_mem b hx) hpx]

/-- The goal-row updater of the recalculation preserves the row id. -/
theorem goalUpd_row_id (gid : Nat) (cv : Int) (st : GoalStatus) (g : Goal) :
    ((if g.id == gid then { g with currentValue := cv, status := st }
      else g) : Goal).id = g.id := by
  by_cases h : g.id == gid <;> simp [h]

/-- Parent goal: yearly, `autoCalculate`, value-tracked toward 100. -/
def parentGoal : Goal :=
  { id := 0, userId := "u", trackingType := .value, targetValue := some 100,
    currentValue := 0, parentGoalId := none, autoCalculate := true,
    status := .pending }

/-- Child (monthly) goal of `parentGoal`, currently at 5. -/
def childGoal : Goal :=
  { id := 1, userId := "u", trackingType := .value, targetValue := some 40,
    currentValue := 5, parentGoalId := some 0, autoCalculate := false,
    status := .pending }

/-- Goal store with the parent/child pair and no milestones. -/
def goalDB : GoalDB := { goals := [parentGoal, childGoal], milestones := [] }

/-- C7 counterexample: updating a child goal's `currentValue` (here to 40)
does not recompute its `autoCalculate` parent — `updateGoal` only
recalculates the goal being updated itself, so the parent's `currentValue`
stays 0 while its children now sum to 40. -/
theorem goal_child_update_leaves_parent_stale :
    (((GoalService.updateGoal 1 "u"
          { targetValue := none, currentValue := some 40, status := none }
          goalDB).1.goals.find? (fun g => g.id == 0)).map Goal.currentValue
        = some 0) ∧
    subGoalsTotal
        (GoalService.updateGoal 1 "u"
          { targetValue := none, currentValue := some 40, status := none }
          goalDB).1 0 = 40 ∧
    ¬ (((GoalService.updateGoal 1 "u"
          { targetValue := none, currentValue := some 40, status := none }
          goalDB).1.goals.find? (fun g => g.id == 0)).map Goal.currentValue
        = some (subGoalsTotal
            (GoalService.updateGoal 1 "u"
              { targetValue := none, currentValue := some 40, status := none }
              goalDB).1 0)) := by
  refine ⟨rfl, rfl, ?_⟩
  intro h
  simp [GoalService.updateGoal, GoalService.recalculateGoalFromSubGoals,
    goalDB, parentGoal, childGoal, subGoalsTotal, subGoalsOf] at h

/-- With the empty field update, `updateGoal` reduces to the auto-recalculation
(when its trigger condition holds) on an otherwise unchanged store. -/
theorem updateGoal_empty_reduces (gid : Nat) (uid : String) (db : GoalDB)
    (g0 : Goal)
    (hfil : db.goals.filter (fun g => g.id == gid) = [g0])
    (howner : g0.userId = uid) :
    GoalService.updateGoal gid uid
        { targetValue := none, currentValue := none, status := none } db =
      ((if g0.autoCalculate && (subGoalsOf db gid).length > 0 then
          GoalService.recalculateGoalFromSubGoals gid db
        else db), .ok g0) := by
  have hfind : db.goals.find? (fun g => g.id == gid && g.userId == uid) = some g0 :=
    find?_of_filter_singleton _ _ _ _ hfil (by simp [howner])
  have hmapself : (db.goals.map fun g => if g.id == gid then g0 else g) = db.goals :=
    map_update_self _ _ _ (fun x hx hpx => eq_of_filter_singleton _ _ _ _ hfil hx hpx)
  unfold GoalService.updateGoal
  rw [hfind]
  dsimp only
  rw [hmapself]

/-- C7 (amended): the aggregation itself is as specified, but it runs when
the parent goal itself is updated, not when a child is. After an update of
the parent (here the empty update) with `autoCalculate` set, at least one
sub-goal, no milestones, value tracking and a positive target `t`, the
parent's `currentValue` becomes the sum of its children's `currentValue`,
and its status becomes `completed` when the rounded progress percentage
reaches 100, `in_progress` when it is below 100 with a positive value, and
stays unchanged otherwise. -/
theorem goal_parent_update_recalculates (gid : Nat) (uid : String) (db : GoalDB)
    (g0 : Goal) (t : Int)
    (hfil : db.goals.filter (fun g => g.id == gid) = [g0])
    (howner : g0.userId = uid)
    (hauto : g0.autoCalculate = true)
    (hchildren : 0 < (subGoalsOf db gid).length)
    (hms : db.milestones.filter (fun m => m.goalId == gid) = [])
    (htrack : g0.trackingType = .value)
    (htv : g0.targetValue = some t) (htpos : 0 < t) :
    ∃ g', ((GoalService.updateGoal gid uid
          { targetValue := none, currentValue := none, status := none }
          db).1.goals.filter (fun g => g.id == gid)) = [g'] ∧
      g'.currentValue = subGoalsTotal db gid ∧
      (100 ≤ jsRound (subGoalsTotal db gid * 100) t → g'.status = .completed) ∧
      (jsRound (subGoalsTotal db gid * 100) t < 100 → 0 < subGoalsTotal db gid →
        g'.status = .in_progress) ∧
      (jsRound (subGoalsTotal db gid * 100) t < 100 → subGoalsTotal db gid ≤ 0 →
        g'.status = g0.status) := by
  have hfind2 : db.goals.find? (fun g => g.id == gid) = some g0 :=
    find?_of_filter_singleton_self _ _ _ hfil
  have hmem := mem_of_filter_singleton _ _ _ hfil
  have ht0 : t ≠ 0 := ne_of_gt htpos
  have hlen := Nat.pos_iff_ne_zero.mp hchildren
  have hcond : (!g0.autoCalculate || (subGoalsOf db gid).length == 0) = false := by
    simp [hauto, hlen]
  have hrec : GoalService.recalculateGoalFromSubGoals gid db =
      { db with goals := db.goals.map fun g =>
          if g.id == gid then
            { g with
                currentValue := subGoalsTotal db gid,
                status :=
                  if 100 ≤ min 100 (jsRound (subGoalsTotal db gid * 100) t) then
                    GoalStatus.completed
                  else if 0 < subGoalsTotal db gid then GoalStatus.in_progress
                  else g0.status }
          else g } := by
    unfold GoalService.recalculateGoalFromSubGoals
    rw [hfind2]
    dsimp only
    rw [hcond]
    simp only [Bool.false_eq_true, if_false]
    rw [hms]
    simp only [List.length_nil, gt_iff_lt, lt_self_iff_false, if_false]
    rw [htrack, htv]
    dsimp only
    rw [if_pos ht0]
  rw [updateGoal_empty_reduces gid uid db g0 hfil howner]
  rw [if_pos (by simp [hauto, hchildren])]
  rw [hrec]
  refine ⟨{ g0 with
              currentValue := subGoalsTotal db gid,
              status :=
                if 100 ≤ min 100 (jsRound (subGoalsTotal db gid * 100) t) then
                  GoalStatus.completed
                else if 0 < subGoalsTotal db gid then GoalStatus.in_progress
                else g0.status }, ?_, rfl, ?_, ?_, ?_⟩
  · show (List.filter _ (List.map _ db.goals)) = _
    rw [filter_map_pres _ _ (fun g => by rw [goalUpd_row_id]), hfil]
    simp only [List.map_cons, List.map_nil, hmem.2, if_pos]
  · intro h
    have hmin : (100 : Int) ≤ min 100 (jsRound (subGoalsTotal db gid * 100) t) :=
      le_min_iff.2 ⟨le_refl _, h⟩
    simp [hmin]
  · intro h1 h2
    have hmin : ¬ (100 : Int) ≤ min 100 (jsRound (subGoalsTotal db gid * 100) t) := by
      rw [min_eq_right (le_of_lt h1)]
      omega
    simp [hmin, h2]
  · intro h1 h2
    have hmin : ¬ (100 : Int) ≤ min 100 (jsRound (subGoalsTotal db gid * 100) t) := by
      rw [min_eq_right (le_of_lt h1)]
      omega
    have h2' : ¬ 0 < subGoalsTotal db gid := by omega
    simp [hmin, h2']

theorem goal_parent_update_recalculates_witness :
    ∃ g', ((GoalService.updateGoal 0 "u"
          { targetValue := none, currentValue := none, status := none }
          goalDB).1.goals.filter (fun g => g.id == 0)) = [g'] ∧
      g'.currentValue = subGoalsTotal goalDB 0 ∧
      (100 ≤ jsRound (subGoalsTotal goalDB 0 * 100) 100 → g'.status = .completed) ∧
      (jsRound (subGoalsTotal goalDB 0 * 100) 100 < 100 →
        0 < subGoalsTotal goalDB 0 → g'.status = .in_progress) ∧
      (jsRound (subGoalsTotal goalDB 0 * 100) 100 < 100 →
        subGoalsTotal goalDB 0 ≤ 0 → g'.status = parentGoal.status) :=
  goal_parent_update_recalculates 0 "u" goalDB parentGoal 100 rfl rfl rfl
    (by decide) rfl rfl rfl (by decide)

/-! ## Storage-operation traces and interleavings (claim C9) -/

/-- The primitive storage writes a posting path issues inside its atomic
unit: the header+entries insert and the relative balance deltas. -/
inductive StoreOp where
  | insertTxn (t : Txn) (es : List Entry)
  | addDelta (walletId : Nat) (d : Int)
deriving DecidableEq, Repr

/-- Interpret one storage write. -/
def applyStoreOp (db : DB) : StoreOp → DB
  | .insertTxn t es =>
    { db with transactions := db.transactions ++ [t],
              entries := db.entries ++ es, nextTxnId := t.id + 1 }
  | .addDelta wid d => { db with wallets := applyDelta wid d db.wallets }

/-- The write trace of the expense path: insert the header with its single
`out` entry, then decrement the wallet by a relative delta. -/
def expenseStoreOps (t : Txn) (wid : Nat) (a : Int) : List StoreOp :=
  [.insertTxn t
      [{ transactionId := t.id, walletId := wid, direction := .dout, amount := a }],
   .addDelta wid (-a)]

/-- A committed expense's end state is exactly the fold of its write trace:
the implementation's balance write is the relative delta, not a
read-then-write of a cached value. -/
theorem createExpense_trace (wid cid dt : Nat) (a : Int) (n : Option String)
    (uid : String) (db : DB) (w0 : Wallet) (cat : Category)
    (hv : validateWalletOwnership wid uid db = .ok w0)
    (hc : validateCategoryOwnership cid uid .expense db = .ok cat)
    (hany : db.wallets.any (fun w => w.id == wid) = true) :
    (createExpenseTransaction wid cid dt a n uid db).1 =
      List.foldl applyStoreOp db
        (expenseStoreOps
          { id := db.nextTxnId, userId := uid, txType := .expense,
            categoryId := some cid, transactionDate := dt, amount := a,
            note := n, deleted := false } wid a) := by
  rw [createExpense_success wid cid dt a n uid db w0 cat hv hc hany]
  rfl

/-- `Interleave l1 l2 l`: `l` is an order-preserving merge of `l1` and `l2` —
the possible serializations the storage layer can produce for two concurrent
writers. -/
inductive Interleave : List StoreOp → List StoreOp → List StoreOp → Prop
  | nil : Interleave [] [] []
  | left {l1 l2 l : List StoreOp} (op : StoreOp) :
      Interleave l1 l2 l → Interleave (op :: l1) l2 (op :: l)
  | right {l1 l2 l : List StoreOp} (op : StoreOp) :
      Interleave l1 l2 l → Interleave l1 (op :: l2) (op :: l)

/-- Net relative delta a trace applies to one wallet. -/
def deltaSum (wid : Nat) : List StoreOp → Int
  | [] => 0
  | StoreOp.addDelta w d :: rest => (if w == wid then d else 0) + deltaSum wid rest
  | StoreOp.insertTxn _ _ :: rest => deltaSum wid rest

theorem map_cb_filter_applyDelta (ws : List Wallet) (w wid : Nat) (d : Int) :
    ((applyDelta w d ws).filter (fun x => x.id == wid)).map Wallet.currentBalance
      = ((ws.filter (fun x => x.id == wid)).map Wallet.currentBalance).map
          (fun b => b + if w == wid then d else 0) := by
  rw [applyDelta, filter_map_pres _ _ (fun x => by rw [applyDelta_row_id]),
    List.map_map, List.map_map]
  apply List.map_congr_left
  intro x hx
  have hxid : x.id = wid := by simpa using (List.mem_filter.1 hx).2
  by_cases hw : w = wid
  · subst hw
    simp [hxid]
  · have h2 : (w == wid) = false := by simp [hw]
    simp [hxid, Ne.symm hw, h2]

/-- A wallet's balance after a write trace is its balance before plus the
trace's net relative delta on it, whatever the order of writes. -/
theorem foldl_storeOps_balance (l : List StoreOp) (db : DB) (wid : Nat) :
    (((List.foldl applyStoreOp db l).wallets.filter (fun w => w.id == wid)).map
        Wallet.currentBalance)
      = ((db.wallets.filter (fun w => w.id == wid)).map Wallet.currentBalance).map
          (fun b => b + deltaSum wid l) := by
  induction l generalizing db with
  | nil => simp [deltaSum]
  | cons op rest ih =>
    rw [List.foldl_cons, ih]
    cases op with
    | insertTxn t es =>
      simp [applyStoreOp, deltaSum]
    | addDelta w d =>
      show (((applyDelta w d db.wallets).filter _).map _).map _ = _
      rw [map_cb_filter_applyDelta, List.map_map]
      apply List.map_congr_left
      intro b _
      simp [deltaSum]
      ring

theorem interleave_deltaSum {l1 l2 l : List StoreOp} (wid : Nat)
    (h : Interleave l1 l2 l) :
    deltaSum wid l = deltaSum wid l1 + deltaSum wid l2 := by
  induction h with
  | nil => simp [deltaSum]
  | left op _ ih => cases op <;> simp [deltaSum, ih] <;> ring
  | right op _ ih => cases op <;> simp [deltaSum, ih] <;> ring

/-- Wallet "C" of user `"u"`, balance 100. -/
def walletC : Wallet :=
  { id := 0, userId := "u", name := "C", walletType := "cash",
    openingBalance := 100, currentBalance := 100, isArchived := false }

/-- Store holding `walletC` and the two categories. -/
def db100 : DB :=
  { wallets := [walletC], categories := [catIncome, catExpense],
    transactions := [], entries := [], nextWalletId := 1, nextTxnId := 0 }

/-- C9: two createTransaction calls that each decrement the same wallet by 50
from balance 100 leave it at 0 — not -50 or 50 — under EVERY serialization of
their storage writes, because each balance write is a storage-level relative
delta (the second conjunct ties the abstract write trace to the actual
expense path of the implementation). -/
theorem concurrent_expense_no_lost_update (t1 t2 : Txn) (l : List StoreOp)
    (hil : Interleave (expenseStoreOps t1 0 50) (expenseStoreOps t2 0 50) l) :
    ((((List.foldl applyStoreOp db100 l).wallets.filter (fun w => w.id == 0)).map
        Wallet.currentBalance = [0]) ∧
      (0 : Int) ≠ -50 ∧ (0 : Int) ≠ 50) ∧
    (TransactionService.createTransaction (.expense 0 1 9 50 none) "u" db100).1 =
      List.foldl applyStoreOp db100
        (expenseStoreOps
          { id := 0, userId := "u", txType := .expense, categoryId := some 1,
            transactionDate := 9, amount := 50, note := none, deleted := false }
          0 50) := by
  refine ⟨⟨?_, by decide, by decide⟩, ?_⟩
  · rw [foldl_storeOps_balance, interleave_deltaSum 0 hil]
    simp [db100, walletC, expenseStoreOps, deltaSum]
  · simp only [TransactionService.createTransaction]
    exact createExpense_trace 0 1 9 50 none "u" db100 walletC catExpense rfl rfl rfl

/-- Header of the first concurrent expense attempt. -/
def hdrOne : Txn :=
  { id := 0, userId := "u", txType := .expense, categoryId := some 1,
    transactionDate := 9, amount := 50, note := none, deleted := false }

/-- Header of the second concurrent expense attempt. -/
def hdrTwo : Txn :=
  { id := 1, userId := "u", txType := .expense, categoryId := some 1,
    transactionDate := 9, amount := 50, note := none, deleted := false }

theorem concurrent_expense_no_lost_update_witness :
    Interleave (expenseStoreOps hdrOne 0 50) (expenseStoreOps hdrTwo 0 50)
        (expenseStoreOps hdrOne 0 50 ++ expenseStoreOps hdrTwo 0 50) ∧
    ((((List.foldl applyStoreOp db100
          (expenseStoreOps hdrOne 0 50 ++ expenseStoreOps hdrTwo 0 50)).wallets.filter
          (fun w => w.id == 0)).map Wallet.currentBalance = [0]) ∧
      (0 : Int) ≠ -50 ∧ (0 : Int) ≠ 50) ∧
    (TransactionService.createTransaction (.expense 0 1 9 50 none) "u" db100).1 =
      List.foldl applyStoreOp db100 (expenseStoreOps hdrOne 0 50) := by
  have hil : Interleave (expenseStoreOps hdrOne 0 50) (expenseStoreOps hdrTwo 0 50)
      (expenseStoreOps hdrOne 0 50 ++ expenseStoreOps hdrTwo 0 50) := by
    simp only [expenseStoreOps, List.cons_append, List.nil_append]
    exact .left _ (.left _ (.right _ (.right _ .nil)))
  exact ⟨hil, concurrent_expense_no_lost_update hdrOne hdrTwo _ hil⟩
